import Mathlib

/-!
# gsnova `proxy/spac.go`: routing policy and proxy selection

A shallow embedding of `src/proxy/spac.go`.  Go strings are Lean strings
(sequences of code points; the source only ever searches for ASCII
delimiters, so code-point and byte positions agree on what is found).
Go's nil slice and empty slice are both the empty list, except for the
result of `SelectProxy`, where `nil` is `none`.  Side effects (log lines,
calls into collaborators) are collected in an event trace.  A run-time
failure of `generatePAC` (a slice out of range) is the value `none`.
-/

namespace Spac

/-! ## Go standard library: `strings`, `unicode`, `net` -/

/-- Go `unicode.IsSpace`: the code points with the White_Space property. -/
def isSpace (c : Char) : Bool :=
  let n := c.toNat
  n == 0x09 || n == 0x0A || n == 0x0B || n == 0x0C || n == 0x0D || n == 0x20 ||
  n == 0x85 || n == 0xA0 || n == 0x1680 || (0x2000 ≤ n && n ≤ 0x200A) ||
  n == 0x2028 || n == 0x2029 || n == 0x202F || n == 0x205F || n == 0x3000

/-- Go `strings.TrimSpace` on the code points of a string. -/
def trimSpaceList (s : List Char) : List Char :=
  ((s.dropWhile isSpace).reverse.dropWhile isSpace).reverse

/-- Go `strings.TrimSpace`. -/
def TrimSpace (s : String) : String := ⟨trimSpaceList s.data⟩

/-- Left-to-right scan of `strings.Replace(s, old, new, -1)` for a non-empty
`old`; `skip` counts the characters of an occurrence still to be dropped. -/
def replaceGo (old new : List Char) : Nat → List Char → List Char
  | _, [] => []
  | skip + 1, _ :: cs => replaceGo old new skip cs
  | 0, c :: cs =>
    if old.isPrefixOf (c :: cs) then new ++ replaceGo old new (old.length - 1) cs
    else c :: replaceGo old new 0 cs

/-- Go `strings.Replace(s, old, new, -1)`: every non-overlapping occurrence
of `old`, left to right; an empty `old` matches before every code point and
at the end. -/
def Replace (s old new : String) : String :=
  if old.data = [] then ⟨new.data ++ s.data.flatMap (fun c => c :: new.data)⟩
  else ⟨replaceGo old.data new.data 0 s.data⟩

/-- Go `strings.Contains` on code points. -/
def containsList (sub : List Char) : List Char → Bool
  | [] => sub.isEmpty
  | c :: cs => sub.isPrefixOf (c :: cs) || containsList sub cs

/-- Go `strings.Contains`. -/
def Contains (s sub : String) : Bool := containsList sub.data s.data

/-- Index of the first occurrence of `c`, Go `strings.IndexByte` (none for -1). -/
def indexByte (c : Char) : List Char → Option Nat
  | [] => none
  | d :: ds => if d = c then some 0 else (indexByte c ds).map (· + 1)

/-- Index of the last occurrence of `c`, the helper `last` of package `net`. -/
def lastIndexByte (c : Char) : List Char → Option Nat
  | [] => none
  | d :: ds =>
    match lastIndexByte c ds with
    | some i => some (i + 1)
    | none => if d = c then some 0 else none

/-- Go `net.SplitHostPort`: `none` stands for a non-nil error. -/
def splitHostPortList (hostport : List Char) : Option (List Char × List Char) :=
  match lastIndexByte ':' hostport with
  | none => none
  | some i =>
    if hostport.head? = some '[' then
      match indexByte ']' hostport with
      | none => none
      | some e =>
        if e + 1 = hostport.length then none
        else if e + 1 = i then
          if (indexByte '[' (hostport.drop 1)).isSome then none
          else if (indexByte ']' (hostport.drop (e + 1))).isSome then none
          else some ((hostport.take e).drop 1, hostport.drop (i + 1))
        else none
    else
      let host := hostport.take i
      if (indexByte ':' host).isSome then none
      else if (indexByte '[' hostport).isSome then none
      else if (indexByte ']' hostport).isSome then none
      else some (host, hostport.drop (i + 1))

/-- Go `net.SplitHostPort`. -/
def SplitHostPort (hostport : String) : Option (String × String) :=
  (splitHostPortList hostport.data).map fun p => (⟨p.1⟩, ⟨p.2⟩)

/-- Go `net.JoinHostPort`. -/
def JoinHostPort (host port : String) : String :=
  if (indexByte ':' host.data).isSome then "[" ++ host ++ "]:" ++ port
  else host ++ ":" ++ port

/-- Go `strings.EqualFold` on code points.  `fold a b` stands for the
orbit test of `unicode.SimpleFold` on a pair `a < b` with `b` outside
ASCII; inside ASCII only the letters fold. -/
def equalFoldList (fold : Char → Char → Bool) : List Char → List Char → Bool
  | [], [] => true
  | [], _ :: _ => false
  | _ :: _, [] => false
  | a :: as, b :: bs =>
    let sr := if b < a then b else a
    let tr := if b < a then a else b
    if a = b then equalFoldList fold as bs
    else if tr.toNat < 0x80 then
      if 'A' ≤ sr && sr ≤ 'Z' && tr.toNat == sr.toNat + 32 then equalFoldList fold as bs
      else false
    else if fold sr tr then equalFoldList fold as bs
    else false

/-- Go `strings.EqualFold`. -/
def EqualFold (fold : Char → Char → Bool) (s t : String) : Bool :=
  equalFoldList fold s.data t.data

/-! ## Go standard library: `regexp` -/

/-- The part of package `regexp` the source uses.  `Compile` is
`regexp.Compile` (the error is its message); `spanMatch re s i j` says that
the code points `i..j` of `s` are a match of `re` in the context of `s`
(anchors look at the whole of `s`). -/
structure RegexpLib where
  Regexp : Type
  Compile : String → Except String Regexp
  spanMatch : Regexp → String → Nat → Nat → Bool

/-- Go `(*Regexp).MatchString`: whether `s` contains any match of `re`. -/
def RegexpLib.MatchString (L : RegexpLib) (re : L.Regexp) (s : String) : Bool :=
  (List.range (s.length + 1)).any fun i =>
    (List.range (s.length + 1)).any fun j => decide (i ≤ j) && L.spanMatch re s i j

/-! ## A model of Go's `regexp` for a fragment of its syntax

The fragment: literals, `.`, `^`, `$`, bracket classes with ranges and
negation, `\d \w \s \D \W \S`, escaped punctuation and control escapes,
groups `( )` and `(?: )`, alternation and the repetitions `* + ?` (also
lazy).  A pattern that uses syntax of Go outside the fragment is answered
with an error whose text starts with `unsupported`; every other error is
one that Go reports too. -/

/-- Abstract syntax of the fragment. -/
inductive Re where
  | empty
  | lit (c : Char)
  | any
  | cls (neg : Bool) (rs : List (Char × Char))
  | bol
  | eol
  | cat (a b : Re)
  | alt (a b : Re)
  | star (a : Re)
  deriving Repr, DecidableEq

namespace Re

/-- One round of the closure of a set of positions under a step. -/
def closure (f : Nat → List Nat) : Nat → List Nat → List Nat
  | 0, acc => acc
  | n + 1, acc => closure f n (acc ++ (acc.flatMap f).filter fun j => !acc.contains j)

/-- The positions where a match of the expression that starts at position
`i` of `s` can end. -/
def ends (s : List Char) : Re → Nat → List Nat
  | empty, i => [i]
  | lit c, i => if s.get? i = some c then [i + 1] else []
  | any, i =>
    match s.get? i with
    | some c => if c = '\n' then [] else [i + 1]
    | none => []
  | cls neg rs, i =>
    match s.get? i with
    | some c => if (rs.any fun r => r.1 ≤ c && c ≤ r.2) != neg then [i + 1] else []
    | none => []
  | bol, i => if i = 0 then [i] else []
  | eol, i => if i = s.length then [i] else []
  | cat a b, i => (ends s a i).flatMap fun j => ends s b j
  | alt a b, i => ends s a i ++ ends s b i
  | star a, i => closure (fun j => ends s a j) (s.length + 1) [i]

/-- ASCII letters and digits, `isalnum` of `regexp/syntax`. -/
def isAlnum (c : Char) : Bool :=
  ('0' ≤ c && c ≤ '9') || ('A' ≤ c && c ≤ 'Z') || ('a' ≤ c && c ≤ 'z')

/-- The ranges of a Perl class letter. -/
def perlClass (c : Char) : Option (Bool × List (Char × Char)) :=
  if c = 'd' then some (false, [('0', '9')])
  else if c = 'D' then some (true, [('0', '9')])
  else if c = 'w' then some (false, [('0', '9'), ('A', 'Z'), ('_', '_'), ('a', 'z')])
  else if c = 'W' then some (true, [('0', '9'), ('A', 'Z'), ('_', '_'), ('a', 'z')])
  else if c = 's' then some (false, [('\t', '\n'), (Char.ofNat 12, '\r'), (' ', ' ')])
  else if c = 'S' then some (true, [('\t', '\n'), (Char.ofNat 12, '\r'), (' ', ' ')])
  else none

/-- The character named by an escape, the text after the backslash given. -/
def parseEscape : List Char → Except String (Char × List Char)
  | [] => .error "trailing backslash at end of expression"
  | c :: t =>
    if c = 'a' then .ok (Char.ofNat 7, t)
    else if c = 'f' then .ok (Char.ofNat 12, t)
    else if c = 'n' then .ok ('\n', t)
    else if c = 'r' then .ok ('\r', t)
    else if c = 't' then .ok ('\t', t)
    else if c = 'v' then .ok (Char.ofNat 11, t)
    else if ('0' ≤ c && c ≤ '7') || c = 'x' then .error "unsupported: numeric escape"
    else if c.toNat < 0x80 && !isAlnum c then .ok (c, t)
    else .error "invalid escape sequence"

/-- One character of a bracket class. -/
def parseClassChar : List Char → Except String (Char × List Char)
  | [] => .error "missing closing ]"
  | '\\' :: t => parseEscape t
  | c :: t => .ok (c, t)

/-- The items of a bracket class up to its closing bracket. -/
def parseClassItems : Nat → Bool → List (Char × Char) → List Char →
    Except String (List (Char × Char) × List Char)
  | 0, _, _, _ => .error "unsupported: pattern too long"
  | n + 1, first, acc, t =>
    match first, t with
    | false, ']' :: t1 => .ok (acc, t1)
    | _, '[' :: ':' :: _ => .error "unsupported: POSIX class"
    | _, '\\' :: 'p' :: _ => .error "unsupported: Unicode class"
    | _, '\\' :: 'P' :: _ => .error "unsupported: Unicode class"
    | _, _ =>
      match (match t with
        | '\\' :: c :: t1 => (perlClass c).map fun p => (p, t1)
        | _ => none) with
      | some ((false, rs), t1) => parseClassItems n false (acc ++ rs) t1
      | some ((true, _), _) => .error "unsupported: negated Perl class in a bracket class"
      | none =>
        match parseClassChar t with
        | .error e => .error e
        | .ok (lo, t1) =>
          match t1 with
          | '-' :: x :: t2 =>
            if x = ']' then parseClassItems n false (acc ++ [(lo, lo)]) t1
            else
              match parseClassChar (x :: t2) with
              | .error e => .error e
              | .ok (hi, t3) =>
                if hi < lo then .error "invalid character class range"
                else parseClassItems n false (acc ++ [(lo, hi)]) t3
          | _ => parseClassItems n false (acc ++ [(lo, lo)]) t1

/-- Digits of `parseInt` of `regexp/syntax`: the rest after a number without
a leading zero. -/
def parseInt (t : List Char) : Option (List Char) :=
  match t with
  | [] => none
  | c :: t1 =>
    if !('0' ≤ c && c ≤ '9') then none
    else
      match c, t1 with
      | '0', d :: _ => if '0' ≤ d && d ≤ '9' then none else some t1
      | _, _ => some (t1.dropWhile fun d => '0' ≤ d && d ≤ '9')

/-- Whether the text after an opening brace is a counted repetition. -/
def isRepeat (t : List Char) : Bool :=
  match parseInt t with
  | none => false
  | some [] => false
  | some ('}' :: _) => true
  | some (',' :: '}' :: _) => true
  | some (',' :: t1) =>
    match parseInt t1 with
    | some ('}' :: _) => true
    | _ => false
  | some _ => false

/-- A repetition operator after an operand, with its lazy mark, and the
test that no second operator follows. -/
def parseOp (a : Re) (t : List Char) : Except String (Re × List Char) :=
  let isOp := fun (c : Char) => c = '*' || c = '+' || c = '?'
  let after := fun (r : Re) (t1 : List Char) =>
    let t2 := match t1 with
      | '?' :: t2 => t2
      | _ => t1
    match t2 with
    | [] => Except.ok (r, t2)
    | c :: t3 =>
      if isOp c then Except.error "invalid nested repetition operator"
      else if c = '{' && isRepeat t3 then Except.error "invalid nested repetition operator"
      else Except.ok (r, t2)
  match t with
  | '*' :: t1 => after (star a) t1
  | '+' :: t1 => after (cat a (star a)) t1
  | '?' :: t1 => after (alt a empty) t1
  | '{' :: t1 => if isRepeat t1 then .error "unsupported: counted repetition" else .ok (a, t)
  | _ => .ok (a, t)

mutual
/-- An alternation of concatenations. -/
def parseAlt : Nat → List Char → Except String (Re × List Char)
  | 0, _ => .error "unsupported: pattern too long"
  | n + 1, t =>
    match parseCat n t with
    | .error e => .error e
    | .ok (a, '|' :: t1) =>
      match parseAlt n t1 with
      | .error e => .error e
      | .ok (b, t2) => .ok (alt a b, t2)
    | .ok (a, t1) => .ok (a, t1)
/-- A concatenation of repeated operands, up to a bar, a closing parenthesis
or the end. -/
def parseCat : Nat → List Char → Except String (Re × List Char)
  | 0, _ => .error "unsupported: pattern too long"
  | n + 1, t =>
    match t with
    | [] => .ok (empty, t)
    | '|' :: _ => .ok (empty, t)
    | ')' :: _ => .ok (empty, t)
    | _ =>
      match parseAtom n t with
      | .error e => .error e
      | .ok (a, t1) =>
        match parseOp a t1 with
        | .error e => .error e
        | .ok (r, t2) =>
          match parseCat n t2 with
          | .error e => .error e
          | .ok (b, t3) => .ok (cat r b, t3)
/-- One operand. -/
def parseAtom : Nat → List Char → Except String (Re × List Char)
  | 0, _ => .error "unsupported: pattern too long"
  | _ + 1, [] => .error "missing argument to repetition operator"
  | n + 1, c :: t =>
    if c = '(' then
      match (match t with
        | '?' :: ':' :: t1 => some t1
        | '?' :: _ => none
        | _ => some t) with
      | none => .error "unsupported: group flags"
      | some t1 =>
        match parseAlt n t1 with
        | .error e => .error e
        | .ok (a, ')' :: t2) => .ok (a, t2)
        | .ok _ => .error "missing closing )"
    else if c = '[' then
      match (match t with
        | '^' :: t1 => (true, t1)
        | _ => (false, t)) with
      | (neg, t1) =>
        match parseClassItems (t1.length + 1) true [] t1 with
        | .error e => .error e
        | .ok (rs, t2) => .ok (cls neg rs, t2)
    else if c = '.' then .ok (any, t)
    else if c = '^' then .ok (bol, t)
    else if c = '$' then .ok (eol, t)
    else if c = '*' || c = '+' || c = '?' then .error "missing argument to repetition operator"
    else if c = '{' then
      if isRepeat t then .error "missing argument to repetition operator" else .ok (lit c, t)
    else if c = '\\' then
      match t with
      | [] => .error "trailing backslash at end of expression"
      | d :: t1 =>
        if d = 'A' || d = 'b' || d = 'B' || d = 'C' || d = 'Q' || d = 'z' || d = 'p' || d = 'P' then
          .error "unsupported: escape"
        else
          match perlClass d with
          | some (neg, rs) => .ok (cls neg rs, t1)
          | none =>
            match parseEscape t with
            | .error e => .error e
            | .ok (x, t2) => .ok (lit x, t2)
    else .ok (lit c, t)
end

/-- Go `regexp.Compile` on the fragment. -/
def Compile (s : String) : Except String Re :=
  match parseAlt (4 * s.data.length + 8) s.data with
  | .error e => .error e
  | .ok (r, []) => .ok r
  | .ok (_, _ :: _) => .error "unexpected )"

end Re

/-- The regular-expression library given by the fragment model. -/
def goRegexp : RegexpLib where
  Regexp := Re
  Compile := Re.Compile
  spanMatch := fun re s i j => (Re.ends s.data re i).contains j

/-! ## Data model of `spac.go` -/

/-- The fields of `http.Request` the source reads. -/
structure Request where
  Method : String
  Host : String
  RequestURI : String
  deriving DecidableEq, Repr

/-- A `net.Conn`, known only by its identity. -/
abbrev Conn := Nat

/-- Calls into collaborators and log lines, in the order they happen. -/
inductive Event where
  | logInvalidPattern (originrule err : String)
  | logFailedInit (err : String)
  | goGeneratePACFromGFWList (url : String)
  | handleSelfHttpRequest (req : Request) (conn : Conn)
  | redirectHttps (conn : Conn) (req : Request)
  | lookupReachableMappingHost (req : Request) (hostport : String)
  | logNoProxy (proxyName : String)
  deriving DecidableEq, Repr

/-- Type `JsonRule`; `R` is `*regexp.Regexp`. -/
structure JsonRule (R : Type) where
  Method : List String
  Host : List String
  URL : List String
  Proxy : List String
  Attr : List (String × String)
  method_regex : List R
  host_regex : List R
  url_regex : List R

/-- Type `SpacConfig`. -/
structure SpacConfig (R : Type) where
  defaultRule : String
  rules : List (JsonRule R)

/-- Type `Forward`, declared outside `spac.go`: the two fields the source sets. -/
structure Forward where
  overProxy : Bool
  target : String
  deriving DecidableEq, Repr

/-- The values of interface `RemoteConnectionManager` that `SelectProxy`
can return: a manager known only by its identity (what the registry holds),
the two Google singletons, and a fresh `Forward`. -/
inductive RemoteConnectionManager where
  | manager (id : Nat)
  | httpGoogleManager
  | httpsGoogleManager
  | forward (f : Forward)
  deriving DecidableEq, Repr

/-- The name constants of package `proxy` that `spac.go` uses; they are
declared in another file of the package. -/
structure Names where
  GAE_NAME : String
  C4_NAME : String
  GOOGLE_NAME : String
  GOOGLE_HTTP_NAME : String
  GOOGLE_HTTPS_NAME : String
  DIRECT_NAME : String
  DEFAULT_NAME : String
  deriving DecidableEq, Repr

/-- What `SelectProxy` reads besides its arguments: package variables,
constants and the collaborators it calls. -/
structure Env (L : RegexpLib) where
  names : Names
  HOSTS_DISABLE : Int
  ProxyPort : String
  spac : SpacConfig L.Regexp
  registedRemoteConnManager : String → Option RemoteConnectionManager
  google_enable : Bool
  hostsEnable : Int
  GetLocalIP : String
  needRedirectHttpsHost : String → Bool
  needInjectCRLF : String → Bool
  lookupReachableMappingHost : Request → String → String × Bool
  simpleFold : Char → Char → Bool

/-- What `InitSpac` reads: the properties of `common.Cfg` (value and
`exist`), `common.Home`, `ioutil.ReadFile` and `json.Unmarshal` into a
slice of rules (the exported fields of every decoded rule, and the error). -/
structure Config where
  spacDefault : String × Bool
  spacEnable : Int × Bool
  spacGFWList : String × Bool
  spacScript : String × Bool
  Home : String
  ReadFile : String → Except String String
  Unmarshal : String → List (JsonRule Unit) × Option String

/-! ## `matchRegexs`, `initRegexSlice`, `JsonRule.init`, `JsonRule.match` -/

/-- The `for` loop of `matchRegexs`. -/
def matchRegexsLoop (L : RegexpLib) (str : String) : List L.Regexp → Bool
  | [] => false
  | regex :: rest => if L.MatchString regex str then true else matchRegexsLoop L str rest

/-- Function `matchRegexs`. -/
def matchRegexs (L : RegexpLib) (str : String) (rules : List L.Regexp) : Bool :=
  if rules.length = 0 then true else matchRegexsLoop L str rules

/-- The `for` loop of `initRegexSlice`; `regexs` is the slice built so far.
The result is the pair the function returns and the log lines. -/
def initRegexSliceLoop (L : RegexpLib) :
    List String → List L.Regexp → (List L.Regexp × Option String) × List Event
  | [], regexs => ((regexs, none), [])
  | originrule :: rest, regexs =>
    let rule := TrimSpace originrule
    let rule := Replace rule "." "\\."
    let rule := Replace rule "*" ".*"
    match L.Compile rule with
    | .error err => (([], some err), [Event.logInvalidPattern originrule err])
    | .ok reg => initRegexSliceLoop L rest (regexs ++ [reg])

/-- Function `initRegexSlice`. -/
def initRegexSlice (L : RegexpLib) (rules : List String) :
    (List L.Regexp × Option String) × List Event :=
  initRegexSliceLoop L rules []

/-- Method `JsonRule.init`: the rule after the call, the error, the log. -/
def JsonRule.init (L : RegexpLib) (r : JsonRule L.Regexp) :
    (JsonRule L.Regexp × Option String) × List Event :=
  let m := initRegexSlice L r.Method
  let r := { r with method_regex := m.1.1 }
  if m.1.2.isSome then ((r, m.1.2), m.2)
  else
    let h := initRegexSlice L r.Host
    let r := { r with host_regex := h.1.1 }
    if h.1.2.isSome then ((r, h.1.2), m.2 ++ h.2)
    else
      let u := initRegexSlice L r.URL
      (({ r with url_regex := u.1.1 }, u.1.2), m.2 ++ h.2 ++ u.2)

/-- Method `JsonRule.match`. -/
def JsonRule.match (L : RegexpLib) (r : JsonRule L.Regexp) (req : Request) : Bool :=
  matchRegexs L req.Method r.method_regex && matchRegexs L req.Host r.host_regex &&
    matchRegexs L req.RequestURI r.url_regex

/-! ## `InitSpac` -/

/-- A rule as `json.Unmarshal` leaves it: the unexported fields are nil. -/
def JsonRule.decoded (R : Type) (o : JsonRule Unit) : JsonRule R :=
  { Method := o.Method, Host := o.Host, URL := o.URL, Proxy := o.Proxy, Attr := o.Attr,
    method_regex := [], host_regex := [], url_regex := [] }

/-- The loop `for _, json_rule := range spac.rules { e = json_rule.init() }`:
the rules after it, the last value of `e`, the log. -/
def InitSpac.initLoop (L : RegexpLib) :
    List (JsonRule L.Regexp) → Option String →
      (List (JsonRule L.Regexp) × Option String) × List Event
  | [], e => (([], e), [])
  | json_rule :: rest, _ =>
    let i := JsonRule.init L json_rule
    let k := InitSpac.initLoop L rest i.1.2
    ((i.1.1 :: k.1.1, k.1.2), i.2 ++ k.2)

/-- The final `if nil != e { log.Printf(...) }` of `InitSpac`. -/
def InitSpac.report : Option String → List Event
  | some e => [Event.logFailedInit e]
  | none => []

/-- Function `InitSpac`: the value of `spac` after the call and the events. -/
def InitSpac (L : RegexpLib) (N : Names) (C : Config) : SpacConfig L.Regexp × List Event :=
  let defaultRule := C.spacDefault.1
  let defaultRule := if defaultRule.length = 0 then N.GAE_NAME else defaultRule
  if C.spacEnable.2 && C.spacEnable.1 == 0 then (⟨defaultRule, []⟩, [])
  else
    let gfw := if C.spacGFWList.2 then [Event.goGeneratePACFromGFWList C.spacGFWList.1] else []
    let script := if !C.spacScript.2 then "spac.json" else C.spacScript.1
    match C.ReadFile (C.Home ++ script) with
    | .error e => (⟨defaultRule, []⟩, gfw ++ InitSpac.report (some e))
    | .ok file =>
      let u := C.Unmarshal file
      let k := InitSpac.initLoop L (u.1.map (JsonRule.decoded L.Regexp)) u.2
      (⟨defaultRule, k.1.1⟩, gfw ++ k.2 ++ InitSpac.report k.1.2)

/-! ## `SelectProxy` -/

/-- Lines 295-300: host and port of the request, port 80 when the Host does
not split. -/
def SelectProxy.hostPort (req : Request) : String × String :=
  match SplitHostPort req.Host with
  | some (v, p) => (v, p)
  | none => (req.Host, "80")

/-- Lines 313-320: the scan of the rules; the result is `proxyNames` and
`matched` after the loop. -/
def SelectProxy.matchStage (L : RegexpLib) (req : Request) (proxyNames : List String) :
    List (JsonRule L.Regexp) → List String × Bool
  | [] => (proxyNames, false)
  | r :: rest =>
    if r.match L req then (r.Proxy, true) else SelectProxy.matchStage L req proxyNames rest

/-- Lines 322-325: the CRLF-injection fallback, on `proxyNames` and `matched`. -/
def SelectProxy.crlfStage {L : RegexpLib} (E : Env L) (req : Request) (isHttpsConn : Bool)
    (st : List String × Bool) : List String × Bool :=
  if !isHttpsConn && !st.2 && E.needInjectCRLF req.Host then
    (["Direct", E.spac.defaultRule], true)
  else st

/-- Lines 327-333: the reachable-mapping-host fallback; the result is
`proxyNames` and the calls made. -/
def SelectProxy.hostsStage {L : RegexpLib} (E : Env L) (req : Request) (host port : String)
    (st : List String × Bool) : List String × List Event :=
  if !st.2 && E.hostsEnable != E.HOSTS_DISABLE then
    let hostport := JoinHostPort host port
    if (E.lookupReachableMappingHost req hostport).2 then
      (["Direct", E.spac.defaultRule], [Event.lookupReachableMappingHost req hostport])
    else (st.1, [Event.lookupReachableMappingHost req hostport])
  else (st.1, [])

/-- Lines 313-333 together: the target-name list that is resolved, and the
calls made on the way. -/
def SelectProxy.proxyNames {L : RegexpLib} (E : Env L) (req : Request) (isHttpsConn : Bool) :
    List String × List Event :=
  let hp := SelectProxy.hostPort req
  SelectProxy.hostsStage E req hp.1 hp.2
    (SelectProxy.crlfStage E req isHttpsConn
      (SelectProxy.matchStage L req [E.spac.defaultRule] E.spac.rules))

/-- Lines 336-371: the body of the resolution loop for one name; the
handlers it appends and the log. -/
def SelectProxy.resolveName {L : RegexpLib} (E : Env L) (req : Request) (proxyName : String) :
    List RemoteConnectionManager × List Event :=
  let proxyName :=
    if EqualFold E.simpleFold proxyName E.names.DEFAULT_NAME then E.spac.defaultRule
    else proxyName
  if proxyName = E.names.GAE_NAME ∨ proxyName = E.names.C4_NAME then
    match E.registedRemoteConnManager proxyName with
    | some v => ([v], [])
    | none => ([], [Event.logNoProxy proxyName])
  else if proxyName = E.names.GOOGLE_NAME ∨ proxyName = E.names.GOOGLE_HTTP_NAME then
    if E.google_enable then ([RemoteConnectionManager.httpGoogleManager], []) else ([], [])
  else if proxyName = E.names.GOOGLE_HTTPS_NAME then
    if E.google_enable then ([RemoteConnectionManager.httpsGoogleManager], []) else ([], [])
  else if proxyName = E.names.DIRECT_NAME then
    let target := req.Host
    let target := if !Contains target ":" then target ++ ":80" else target
    let target := if !Contains target "://" then "http://" ++ target else target
    ([RemoteConnectionManager.forward ⟨false, target⟩], [])
  else
    let target := TrimSpace proxyName
    let target := if !Contains target "://" then "http://" ++ target else target
    ([RemoteConnectionManager.forward ⟨true, target⟩], [])

/-- Lines 335-372: the resolution loop; `proxyManagers` is the slice built
so far. -/
def SelectProxy.resolveLoop {L : RegexpLib} (E : Env L) (req : Request) :
    List String → List RemoteConnectionManager → List RemoteConnectionManager × List Event
  | [], proxyManagers => (proxyManagers, [])
  | proxyName :: rest, proxyManagers =>
    let r := SelectProxy.resolveName E req proxyName
    let k := SelectProxy.resolveLoop E req rest (proxyManagers ++ r.1)
    (k.1, r.2 ++ k.2)

/-- Lines 303 : the test of a request to the proxy itself. -/
def SelectProxy.isSelf {L : RegexpLib} (E : Env L) (req : Request) : Bool :=
  let hp := SelectProxy.hostPort req
  (hp.1 == "127.0.0.1" || hp.1 == E.GetLocalIP) && hp.2 == E.ProxyPort

/-- Function `SelectProxy`: the returned slice (`none` is nil) and the
events of the call. -/
def SelectProxy {L : RegexpLib} (E : Env L) (req : Request) (conn : Conn) (isHttpsConn : Bool) :
    Option (List RemoteConnectionManager) × List Event :=
  if SelectProxy.isSelf E req then (none, [Event.handleSelfHttpRequest req conn])
  else if !isHttpsConn && E.needRedirectHttpsHost req.Host then
    (none, [Event.redirectHttps conn req])
  else
    let n := SelectProxy.proxyNames E req isHttpsConn
    let k := SelectProxy.resolveLoop E req n.1 []
    (some k.1, n.2 ++ k.2)

/-! ## Concrete values for the closed examples -/

/-- A library that records the source it is asked to compile: the compiled
pattern is the source text itself. -/
def recordingLib : RegexpLib where
  Regexp := String
  Compile := fun src => .ok src
  spanMatch := fun _ _ _ _ => false

/-- The values of the name constants in the package. -/
def gsnovaNames : Names where
  GAE_NAME := "GAE"
  C4_NAME := "C4"
  GOOGLE_NAME := "Google"
  GOOGLE_HTTP_NAME := "GoogleHttp"
  GOOGLE_HTTPS_NAME := "GoogleHttps"
  DIRECT_NAME := "Direct"
  DEFAULT_NAME := "Default"

/-- A rule without compiled patterns, as `json.Unmarshal` leaves it. -/
def ruleOf (R : Type) (host proxy : List String) : JsonRule R :=
  { Method := [], Host := host, URL := [], Proxy := proxy, Attr := [],
    method_regex := [], host_regex := [], url_regex := [] }

/-- A rule whose host set is the single literal pattern `z`. -/
def ruleHostZ (proxy : List String) : JsonRule Re :=
  { Method := [], Host := ["z"], URL := [], Proxy := proxy, Attr := [],
    method_regex := [], host_regex := [Re.cat (Re.lit 'z') Re.empty], url_regex := [] }

/-- An environment with the given rules and switches: default target GAE,
proxy port 48100, GAE registered as manager 1. -/
def exampleEnv (rules : List (JsonRule Re)) (gae : Bool) (hosts : Int)
    (https crlf reach : String → Bool) : Env goRegexp where
  names := gsnovaNames
  HOSTS_DISABLE := 0
  ProxyPort := "48100"
  spac := ⟨"GAE", rules⟩
  registedRemoteConnManager := fun n =>
    if gae && n = "GAE" then some (RemoteConnectionManager.manager 1) else none
  google_enable := false
  hostsEnable := hosts
  GetLocalIP := "192.168.1.2"
  needRedirectHttpsHost := https
  needInjectCRLF := crlf
  lookupReachableMappingHost := fun _ hp => ("10.0.0.1:80", reach hp)
  simpleFold := fun _ _ => false

/-- A GET request for the given Host. -/
def exampleReq (host : String) : Request := ⟨"GET", host, "/"⟩

/-- A configuration whose rule file decodes to two rules, the first with the
host pattern `[`, which does not compile. -/
def failingConfig : Config where
  spacDefault := ("", false)
  spacEnable := (1, true)
  spacGFWList := ("", false)
  spacScript := ("", false)
  Home := "/home/gsnova/"
  ReadFile := fun _ => .ok "two rules"
  Unmarshal := fun _ =>
    ([ruleOf Unit ["["] ["Direct"], ruleOf Unit ["example.com"] ["GAE"]], none)

/-! ## The pattern rewriting of `initRegexSlice`, by character -/

/-- The regular-expression source of a raw pattern, character by character:
the trimmed text with every `.` replaced by `\.` and every `*` by `.*`. -/
def globSource (raw : String) : String :=
  ⟨(trimSpaceList raw.data).flatMap fun c =>
    if c = '.' then ['\\', '.'] else if c = '*' then ['.', '*'] else [c]⟩

/-- The rewriting in the words of the specification, on trimmed text: every
`.` escaped, every run of `*` rewritten to one `.*`; `inRun` says that the
previous character was a `*`. -/
def globSourceSpecList : Bool → List Char → List Char
  | _, [] => []
  | inRun, c :: cs =>
    if c = '*' then
      if inRun then globSourceSpecList true cs else '.' :: '*' :: globSourceSpecList true cs
    else if c = '.' then '\\' :: '.' :: globSourceSpecList false cs
    else c :: globSourceSpecList false cs

/-- The regular-expression source of a raw pattern in the words of the
specification. -/
def globSourceSpec (raw : String) : String :=
  ⟨globSourceSpecList false (trimSpaceList raw.data)⟩

/-! ## `PostInitSpac` -/

/-- The package variables `PostInitSpac` writes: `spac` and
`injectCRLFPatterns`; `P` is the type of a host pattern set. -/
structure PolicyState (R P : Type) where
  spac : SpacConfig R
  injectCRLFPatterns : P

/-- Function `PostInitSpac`, on the variables it writes.  It reads the name
constants and the switches `gae_enable` and `c4_enable`, and calls
`initHostMatchRegex`, which is declared outside `spac.go`. -/
def PostInitSpac {R P : Type} (N : Names) (gae_enable c4_enable : Bool)
    (initHostMatchRegex : String → P) (st : PolicyState R P) : PolicyState R P :=
  if st.spac.defaultRule = N.GAE_NAME then
    if !gae_enable then
      ⟨{ st.spac with defaultRule := N.DIRECT_NAME }, initHostMatchRegex "*"⟩
    else st
  else if st.spac.defaultRule = N.C4_NAME then
    if !c4_enable then
      ⟨{ st.spac with defaultRule := N.DIRECT_NAME }, initHostMatchRegex "*"⟩
    else st
  else st

/-- The target of an upstream-proxy name in the words of the specification:
the normalization of the direct case applied to the trimmed name, port 80
supplied when no port is present and scheme `http` when no scheme is. -/
def upstreamTargetSpec (proxyName : String) : String :=
  let target := TrimSpace proxyName
  let target := if !Contains target ":" then target ++ ":80" else target
  if !Contains target "://" then "http://" ++ target else target

/-- A configuration that names the default target and whose rule file
decodes to no rule. -/
def defaultOnlyConfig (dflt : String) : Config where
  spacDefault := (dflt, true)
  spacEnable := (1, true)
  spacGFWList := ("", false)
  spacScript := ("", false)
  Home := "/home/gsnova/"
  ReadFile := fun _ => .ok "no rule"
  Unmarshal := fun _ => ([], none)

/-- The environment of the examples after start-up: `InitSpac` on the given
configuration, then `PostInitSpac` with the given switches. -/
def startedEnv (C : Config) (gae_enable c4_enable registered : Bool) : Env goRegexp :=
  { exampleEnv [] registered 0 (fun _ => false) (fun _ => false) (fun _ => false) with
    spac := (PostInitSpac gsnovaNames gae_enable c4_enable (fun p => [p])
      ⟨(InitSpac goRegexp gsnovaNames C).1, ([] : List String)⟩).spac }

/-! ## Go standard library: `Regexp.ReplaceAllString`, `bufio.Reader.ReadLine` -/

/-- Go `strings.HasPrefix`. -/
def HasPrefix (s p : String) : Bool := p.data.isPrefixOf s.data

/-- Go `strings.HasSuffix`. -/
def HasSuffix (s p : String) : Bool := p.data.reverse.isPrefixOf s.data.reverse

namespace Re

/-- The next match of the expression in `s` at or after position `pos`, with
`n` start positions left to try: the leftmost start and, from it, the longest
end.  The patterns of `generatePAC` are a fixed text, one class or one greedy
run, for which Go's leftmost-first match is this one. -/
def findFrom (re : Re) (s : List Char) : Nat → Nat → Option (Nat × Nat)
  | 0, _ => none
  | n + 1, pos =>
    match ends s re pos with
    | [] => findFrom re s n (pos + 1)
    | e :: es => some (pos, (e :: es).foldl max 0)

/-- The name after a `$` of a replacement template, `extract` of package
`regexp` for names of ASCII letters, digits and underscores: the name and
the rest of the template. -/
def extractName (t : List Char) : Option (List Char × List Char) :=
  let isName := fun (c : Char) => isAlnum c || c = '_'
  match t with
  | '{' :: t1 =>
    match t1.takeWhile isName, t1.dropWhile isName with
    | [], _ => none
    | name, '}' :: t2 => some (name, t2)
    | _, _ => none
  | _ =>
    match t.takeWhile isName with
    | [] => none
    | name => some (name, t.dropWhile isName)

/-- Go `Regexp.expand` for a template whose only group reference is `$0`,
the text `m` of the match; another reference expands to nothing. -/
def expandTemplate (m : List Char) : Nat → List Char → List Char
  | 0, t => t
  | _ + 1, [] => []
  | n + 1, c :: t =>
    if c = '$' then
      match t with
      | '$' :: t1 => '$' :: expandTemplate m n t1
      | _ =>
        match extractName t with
        | none => '$' :: expandTemplate m n t
        | some (name, t1) => (if name = ['0'] then m else []) ++ expandTemplate m n t1
    else c :: expandTemplate m n t

/-- The loop of `Regexp.replaceAll`: `lastMatchEnd` and `searchPos` as in
the Go source, `left` the number of matches that may still be replaced
(none for no limit).  The result is the output from `lastMatchEnd` on. -/
def replaceLoop (re : Re) (s : List Char) (repl : List Char → List Char) :
    Nat → Option Nat → Nat → Nat → List Char
  | 0, _, lastMatchEnd, _ => s.drop lastMatchEnd
  | fuel + 1, left, lastMatchEnd, searchPos =>
    if left = some 0 ∨ s.length < searchPos then s.drop lastMatchEnd
    else
      match findFrom re s (s.length + 1 - searchPos) searchPos with
      | none => s.drop lastMatchEnd
      | some (a0, a1) =>
        let before := (s.drop lastMatchEnd).take (a0 - lastMatchEnd)
        let put := if lastMatchEnd < a1 ∨ a0 = 0 then repl ((s.drop a0).take (a1 - a0)) else []
        let width := if searchPos < s.length then 1 else 0
        let next :=
          if a1 < searchPos + width then searchPos + width
          else if a1 < searchPos + 1 then searchPos + 1
          else a1
        before ++ put ++ replaceLoop re s repl fuel (left.map (· - 1)) a1 next

/-- Go `Regexp.ReplaceAllString`. -/
def ReplaceAllString (re : Re) (src repl : String) : String :=
  ⟨replaceLoop re src.data (fun m => expandTemplate m (repl.length + 1) repl.data)
    (src.length + 2) none 0 0⟩

end Re

/-- Modelled from the spec: `util.RegexpReplace(str, replace, regex, count)`
of package `util`, which is not under `src/`.  The specification describes
its calls as rewriting the leading or trailing token the pattern names: the
first `count` matches of `regex` in `str` are replaced by the text
`replace`, taken literally. -/
def RegexpReplace (str replace : String) (regex : Re) (count : Nat) : String :=
  ⟨Re.replaceLoop regex str.data (fun _ => replace.data) (str.length + 2) (some count) 0 0⟩

/-- The size of the buffer of `bufio.NewReader`. -/
def bufSize : Nat := 4096

/-- The lines that successive calls of `bufio.Reader.ReadLine` return until
the first error, on the unread text; `cur` is the line being read, reversed,
and `n` its size in bytes.  A line ends at a newline (a carriage return
before it is dropped); a line that fills the buffer without a newline is
returned in pieces of `bufSize` bytes, a carriage return at the end of a
piece going to the next piece.  Exact when no piece boundary falls inside a
code point of several bytes. -/
def readLinesFrom : List Char → List Char → Nat → List (List Char)
  | [], cur, n =>
    if cur = [] then []
    else if n = bufSize ∧ cur.head? = some '\r' then [cur.tail.reverse, ['\r']]
    else [cur.reverse]
  | c :: cs, cur, n =>
    if n + c.utf8Size ≤ bufSize then
      if c = '\n' then
        (if cur.head? = some '\r' then cur.tail else cur).reverse :: readLinesFrom cs [] 0
      else readLinesFrom cs (c :: cur) (n + c.utf8Size)
    else if cur.head? = some '\r' then
      cur.tail.reverse ::
        (if c = '\n' then [] :: readLinesFrom cs [] 0
         else readLinesFrom cs [c, '\r'] (1 + c.utf8Size))
    else
      cur.reverse ::
        (if c = '\n' then [] :: readLinesFrom cs [] 0
         else readLinesFrom cs [c] c.utf8Size)

/-- The results of the `reader.ReadLine()` calls of `generatePAC` on a
content. -/
def readLines (content : String) : List String :=
  (readLinesFrom content.data [] 0).map String.mk

/-! ## `generatePAC` -/

/-- Lines 167-200: the translation of an AutoProxy line to the body of a
JavaScript regular expression.  A step whose pattern does not compile is
skipped, as in the source; the log line for an empty result (lines 201-203)
is not part of the value. -/
def generatePAC.translate (str : String) : String :=
  let jsRegexp := ""
  let jsRegexp :=
    match Re.Compile "\\*+" with
    | .ok tmp => tmp.ReplaceAllString str "*"
    | .error _ => jsRegexp
  let jsRegexp :=
    match Re.Compile "\\^\\|$" with
    | .ok tmp => RegexpReplace jsRegexp "^" tmp 1
    | .error _ => jsRegexp
  let jsRegexp :=
    match Re.Compile "(\\W)" with
    | .ok tmp => tmp.ReplaceAllString jsRegexp "\\$0"
    | .error _ => jsRegexp
  let jsRegexp := Replace jsRegexp "\\*" ".*"
  let jsRegexp :=
    match Re.Compile "\\\\^" with
    | .ok tmp => tmp.ReplaceAllString jsRegexp "(?:[^\\w\\-.%\u0080-\uFFFF]|$)"
    | .error _ => jsRegexp
  let jsRegexp :=
    match Re.Compile "^\\\\\\|\\\\\\|" with
    | .ok tmp => RegexpReplace jsRegexp "^[\\w\\-]+:\\/+(?!\\/)(?:[^\\/]+\\.)?" tmp 1
    | .error _ => jsRegexp
  let jsRegexp :=
    match Re.Compile "^\\\\\\|" with
    | .ok tmp => RegexpReplace jsRegexp "^" tmp 1
    | .error _ => jsRegexp
  let jsRegexp :=
    match Re.Compile "\\\\\\|$" with
    | .ok tmp => RegexpReplace jsRegexp "$" tmp 1
    | .error _ => jsRegexp
  let jsRegexp :=
    match Re.Compile "^(\\.\\*)" with
    | .ok tmp => RegexpReplace jsRegexp "" tmp 1
    | .error _ => jsRegexp
  let jsRegexp :=
    match Re.Compile "(\\.\\*)$" with
    | .ok tmp => RegexpReplace jsRegexp "" tmp 1
    | .error _ => jsRegexp
  jsRegexp

/-- What the body of the loop of `generatePAC` does with one line after the
first: nothing, a statement for the variable `proxyVar`, or a run-time
failure of a slice expression. -/
inductive LineResult where
  | skip
  | emit (jsLine proxyVar : String)
  | sliceOutOfRange
  deriving DecidableEq, Repr

/-- Lines 145-205: the body of the loop for one line after the first. -/
def generatePAC.line (line : String) : LineResult :=
  let str := TrimSpace line
  let proxyVar := "PROXY"
  if HasPrefix str "!" || str.length == 0 then LineResult.skip
  else
    let exc := HasPrefix str "@@"
    let str := if exc then String.mk (str.data.drop 2) else str
    let proxyVar := if exc then "DEFAULT" else proxyVar
    if HasPrefix str "/" && HasSuffix str "/" then
      if 1 ≤ str.length - 1 then
        LineResult.emit
          ("if(/" ++ String.mk ((str.data.drop 1).take (str.length - 1 - 1)) ++
            "/i.test(url)) return " ++ proxyVar ++ ";") proxyVar
      else LineResult.sliceOutOfRange
    else
      LineResult.emit
        ("if(/" ++ generatePAC.translate str ++ "/i.test(url)) return " ++ proxyVar ++ ";")
        proxyVar

/-- Lines 135-212: the loop over the lines read; `i` counts the lines seen
and `jscode` is the statement list so far.  `none` is a run-time failure. -/
def generatePAC.loop : List String → Nat → List String → Option (List String)
  | [], _, jscode => some jscode
  | line :: rest, i, jscode =>
    if i + 1 = 1 then generatePAC.loop rest (i + 1) jscode
    else
      match generatePAC.line line with
      | LineResult.skip => generatePAC.loop rest (i + 1) jscode
      | LineResult.sliceOutOfRange => none
      | LineResult.emit jsLine proxyVar =>
        if proxyVar = "DEFAULT" then generatePAC.loop rest (i + 1) ([jsLine] ++ jscode)
        else generatePAC.loop rest (i + 1) (jscode ++ [jsLine])

/-- Lines 130-132: the content that is read, the block list and, when
`ioutil.ReadFile` returns the file `user-gfwlist.txt` without error, a
newline and that file. -/
def generatePAC.content (user : Option String) (content : String) : String :=
  match user with
  | some usercontent => content ++ "\n" ++ usercontent
  | none => content

/-- Lines 130-212: the statement list `jscode` at the end of the loop;
`user` is the content of `user-gfwlist.txt` when `ioutil.ReadFile` returns
it without error. -/
def generatePAC.statements (user : Option String) (content : String) : Option (List String) :=
  generatePAC.loop (readLines (generatePAC.content user content)) 0 []

/-- The template `pacGenFormatter` executed on the fields that `generatePAC`
sets. -/
def pacGenFormatter (RuleListUrl RuleListDate ProxyString RuleListCode : String) : String :=
  "/*\n * Proxy Auto-Config file generated by autoproxy2pac\n *  Rule source: " ++
  RuleListUrl ++ "\n *  Last update: " ++ RuleListDate ++
  "\n */\nfunction FindProxyForURL(url, host) \x7b\n\tvar PROXY = \"" ++ ProxyString ++
  "\";\n\tvar DEFAULT = \"DIRECT\";\n\t\n\t//-- AUTO-GENERATED RULES, DO NOT MODIFY!\n\t" ++
  RuleListCode ++ "\n\t//-- END OF AUTO-GENERATED RULES\n\t\n\treturn DEFAULT;\n\x7d"

/-- Function `generatePAC`; `ProxyPort` is `common.ProxyPort` and `none` is a
run-time failure. -/
def generatePAC (ProxyPort : String) (user : Option String) (url date content : String) :
    Option String :=
  (generatePAC.statements user content).map fun jscode =>
    pacGenFormatter url date ("PROXY " ++ JoinHostPort "127.0.0.1" ProxyPort)
      (String.intercalate "\r\n\t" jscode)

/-- The statement of a line, when it has one. -/
def generatePAC.stmtOf (line : String) : Option String :=
  match generatePAC.line line with
  | LineResult.emit jsLine _ => some jsLine
  | _ => none

/-- Whether the trimmed line starts with `@@`. -/
def generatePAC.isException (line : String) : Bool := HasPrefix (TrimSpace line) "@@"

/-- Whether the trimmed line is non-empty and does not start with `!`. -/
def generatePAC.isProcessed (line : String) : Bool :=
  !(HasPrefix (TrimSpace line) "!" || (TrimSpace line).length == 0)

/-! ## A model of the regular expressions of JavaScript

The statements that `generatePAC` emits are run by the PAC consumer as
`/body/i.test(url)`.  This is a model of that test for a fragment of the
pattern syntax of ECMAScript (without the `u` flag): literals, `.`, `^`,
`$`, bracket classes with ranges and negation, `\d \w \s \D \W \S`, control
and identity escapes, groups, lookahead `(?= )` and `(?! )`, alternation and
the repetitions `* + ?` (also lazy).  A body outside the fragment, or one
that is no regular-expression literal at all (empty, or with a bare `/`
outside a class), has no value.  Ignoring case is modelled for ASCII
letters, positions are code points. -/

namespace Js

/-- Abstract syntax of the fragment. -/
inductive Pat where
  | empty
  | lit (c : Char)
  | any
  | cls (neg : Bool) (rs : List (Char × Char))
  | bol
  | eol
  | cat (a b : Pat)
  | alt (a b : Pat)
  | star (a : Pat)
  | look (neg : Bool) (a : Pat)
  deriving Repr, DecidableEq

/-- ASCII upper case. -/
def upper (c : Char) : Char :=
  if 'a' ≤ c ∧ c ≤ 'z' then Char.ofNat (c.toNat - 32) else c

/-- ASCII lower case. -/
def lower (c : Char) : Char :=
  if 'A' ≤ c ∧ c ≤ 'Z' then Char.ofNat (c.toNat + 32) else c

/-- Membership in a union of ranges. -/
def inRanges (rs : List (Char × Char)) (c : Char) : Bool :=
  rs.any fun r => r.1 ≤ c && c ≤ r.2

/-- The positions where a match that starts at position `i` of `s` can end;
`ic` is the flag `i`. -/
def ends (ic : Bool) (s : List Char) : Pat → Nat → List Nat
  | Pat.empty, i => [i]
  | Pat.lit c, i =>
    match s.get? i with
    | some d => if d = c || (ic && upper d = upper c) then [i + 1] else []
    | none => []
  | Pat.any, i =>
    match s.get? i with
    | some c =>
      if c = '\n' ∨ c = '\r' ∨ c.toNat = 0x2028 ∨ c.toNat = 0x2029 then [] else [i + 1]
    | none => []
  | Pat.cls neg rs, i =>
    match s.get? i with
    | some c =>
      if (inRanges rs c || (ic && (inRanges rs (upper c) || inRanges rs (lower c)))) != neg
      then [i + 1] else []
    | none => []
  | Pat.bol, i => if i = 0 then [i] else []
  | Pat.eol, i => if i = s.length then [i] else []
  | Pat.cat a b, i => (ends ic s a i).flatMap fun j => ends ic s b j
  | Pat.alt a b, i => ends ic s a i ++ ends ic s b i
  | Pat.star a, i => Re.closure (fun j => ends ic s a j) (s.length + 1) [i]
  | Pat.look neg a, i => if (ends ic s a i).isEmpty = neg then [i] else []

/-- The ranges of a class escape letter. -/
def classEscape (c : Char) : Option (Bool × List (Char × Char)) :=
  let word := [('0', '9'), ('A', 'Z'), ('_', '_'), ('a', 'z')]
  let space := [('\t', '\r'), (' ', ' '), (Char.ofNat 0xA0, Char.ofNat 0xA0),
    (Char.ofNat 0x1680, Char.ofNat 0x1680), (Char.ofNat 0x2000, Char.ofNat 0x200A),
    (Char.ofNat 0x2028, Char.ofNat 0x2029), (Char.ofNat 0x202F, Char.ofNat 0x202F),
    (Char.ofNat 0x205F, Char.ofNat 0x205F), (Char.ofNat 0x3000, Char.ofNat 0x3000),
    (Char.ofNat 0xFEFF, Char.ofNat 0xFEFF)]
  if c = 'd' then some (false, [('0', '9')])
  else if c = 'D' then some (true, [('0', '9')])
  else if c = 'w' then some (false, word)
  else if c = 'W' then some (true, word)
  else if c = 's' then some (false, space)
  else if c = 'S' then some (true, space)
  else none

/-- The character of an escape that names one character, the text after the
backslash given; `inClass` says that the escape stands in a bracket class. -/
def charEscape (inClass : Bool) : List Char → Option (Char × List Char)
  | [] => none
  | c :: t =>
    if c = 't' then some ('\t', t)
    else if c = 'n' then some ('\n', t)
    else if c = 'v' then some (Char.ofNat 11, t)
    else if c = 'f' then some (Char.ofNat 12, t)
    else if c = 'r' then some ('\r', t)
    else if c = 'b' then (if inClass then some (Char.ofNat 8, t) else none)
    else if c = 'B' ∨ c = 'c' ∨ c = 'x' ∨ c = 'u' ∨ c = 'k' then none
    else if '0' ≤ c ∧ c ≤ '9' then none
    else some (c, t)

/-- One atom of a bracket class: the ranges of a class escape, or one
character. -/
def classAtom : List Char → Option ((List (Char × Char) ⊕ Char) × List Char)
  | [] => none
  | '\\' :: c :: t =>
    match classEscape c with
    | some (false, rs) => some (Sum.inl rs, t)
    | some (true, _) => none
    | none => (charEscape true (c :: t)).map fun p => (Sum.inr p.1, p.2)
  | '\\' :: [] => none
  | c :: t => some (Sum.inr c, t)

/-- The atoms of a bracket class up to its closing bracket. -/
def parseClass : Nat → List (Char × Char) → List Char → Option (List (Char × Char) × List Char)
  | 0, _, _ => none
  | _ + 1, _, [] => none
  | n + 1, acc, c :: t =>
    if c = ']' then some (acc, t)
    else
      match classAtom (c :: t) with
      | none => none
      | some (Sum.inl rs, t1) => parseClass n (acc ++ rs) t1
      | some (Sum.inr lo, t1) =>
        match t1 with
        | '-' :: x :: t2 =>
          if x = ']' then parseClass n (acc ++ [(lo, lo)]) t1
          else
            match classAtom (x :: t2) with
            | none => none
            | some (Sum.inl rs, t3) => parseClass n (acc ++ [(lo, lo), ('-', '-')] ++ rs) t3
            | some (Sum.inr hi, t3) =>
              if hi < lo then none else parseClass n (acc ++ [(lo, hi)]) t3
        | _ => parseClass n (acc ++ [(lo, lo)]) t1

/-- A quantifier after an atom, with its lazy mark; `ok` says that the atom
can be repeated. -/
def parseQuantifier (ok : Bool) (a : Pat) (t : List Char) : Option (Pat × List Char) :=
  let lazy := fun (t1 : List Char) =>
    match t1 with
    | '?' :: t2 => t2
    | _ => t1
  let next := fun (r : Pat) (t1 : List Char) =>
    match lazy t1 with
    | [] => some (r, [])
    | c :: t2 =>
      if c = '*' ∨ c = '+' ∨ c = '?' then none
      else if c = '{' ∧ Re.isRepeat t2 then none
      else some (r, c :: t2)
  match t with
  | '*' :: t1 => if ok then next (Pat.star a) t1 else none
  | '+' :: t1 => if ok then next (Pat.cat a (Pat.star a)) t1 else none
  | '?' :: t1 => if ok then next (Pat.alt a Pat.empty) t1 else none
  | '{' :: t1 => if Re.isRepeat t1 then none else some (a, t)
  | _ => some (a, t)

mutual
/-- A disjunction. -/
def parseAlt : Nat → List Char → Option (Pat × List Char)
  | 0, _ => none
  | n + 1, t =>
    match parseCat n t with
    | none => none
    | some (a, '|' :: t1) =>
      match parseAlt n t1 with
      | none => none
      | some (b, t2) => some (Pat.alt a b, t2)
    | some (a, t1) => some (a, t1)
/-- An alternative: terms up to a bar, a closing parenthesis or the end. -/
def parseCat : Nat → List Char → Option (Pat × List Char)
  | 0, _ => none
  | n + 1, t =>
    match t with
    | [] => some (Pat.empty, t)
    | '|' :: _ => some (Pat.empty, t)
    | ')' :: _ => some (Pat.empty, t)
    | _ =>
      match parseAtom n t with
      | none => none
      | some ((a, ok), t1) =>
        match parseQuantifier ok a t1 with
        | none => none
        | some (r, t2) =>
          match parseCat n t2 with
          | none => none
          | some (b, t3) => some (Pat.cat r b, t3)
/-- One term without its quantifier, and whether it can be repeated. -/
def parseAtom : Nat → List Char → Option ((Pat × Bool) × List Char)
  | 0, _ => none
  | _ + 1, [] => none
  | n + 1, c :: t =>
    if c = '(' then
      match (match t with
        | '?' :: ':' :: t1 => some (none, t1)
        | '?' :: '=' :: t1 => some (some false, t1)
        | '?' :: '!' :: t1 => some (some true, t1)
        | '?' :: _ => none
        | _ => some (none, t)) with
      | none => none
      | some (kind, t1) =>
        match parseAlt n t1 with
        | some (a, ')' :: t2) =>
          match kind with
          | none => some ((a, true), t2)
          | some neg => some ((Pat.look neg a, true), t2)
        | _ => none
    else if c = '[' then
      match (match t with
        | '^' :: t1 => (true, t1)
        | _ => (false, t)) with
      | (neg, t1) =>
        match parseClass (t1.length + 1) [] t1 with
        | none => none
        | some (rs, t2) => some ((Pat.cls neg rs, true), t2)
    else if c = '.' then some ((Pat.any, true), t)
    else if c = '^' then some ((Pat.bol, false), t)
    else if c = '$' then some ((Pat.eol, false), t)
    else if c = '*' ∨ c = '+' ∨ c = '?' ∨ c = '/' then none
    else if c = '{' then (if Re.isRepeat t then none else some ((Pat.lit c, true), t))
    else if c = '\\' then
      match t with
      | [] => none
      | d :: t1 =>
        match classEscape d with
        | some (neg, rs) => some ((Pat.cls neg rs, true), t1)
        | none => (charEscape false t).map fun p => ((Pat.lit p.1, true), p.2)
    else some ((Pat.lit c, true), t)
end

/-- The pattern of a regular-expression literal with the given body. -/
def parse (body : String) : Option Pat :=
  match body.data with
  | [] => none
  | t =>
    match parseAlt (4 * t.length + 8) t with
    | some (p, []) => some p
    | _ => none

/-- The value of `/body/i.test(url)`. -/
def test (body url : String) : Option Bool :=
  (parse body).map fun p =>
    (List.range (url.length + 1)).any fun i => !(ends true url.data p i).isEmpty

end Js

/-- A block-list body of four lines: a header, the block line `block.com`,
an exception line of `@@` and 4095 letters `a`, and the block line
`other.org`. -/
def longExceptionBody : String :=
  String.mk ("h\nblock.com\n@@".data ++ List.replicate 4095 'a' ++ "\nother.org".data)

/-! ## Lemmas on the library model -/

theorem MatchString_iff (L : RegexpLib) (re : L.Regexp) (s : String) :
    L.MatchString re s = true ↔
      ∃ i j, i ≤ j ∧ j ≤ s.length ∧ L.spanMatch re s i j = true := by
  unfold RegexpLib.MatchString
  simp only [List.any_eq_true, List.mem_range, Bool.and_eq_true, decide_eq_true_eq]
  constructor
  · rintro ⟨i, _, j, hj, hij, h⟩
    exact ⟨i, j, hij, by omega, h⟩
  · rintro ⟨i, j, hij, hj, h⟩
    exact ⟨i, by omega, j, by omega, hij, h⟩

theorem matchRegexsLoop_iff (L : RegexpLib) (str : String) (rules : List L.Regexp) :
    matchRegexsLoop L str rules = true ↔ ∃ re ∈ rules, L.MatchString re str = true := by
  induction rules with
  | nil => simp [matchRegexsLoop]
  | cons r rest ih =>
    by_cases h : L.MatchString r str = true
    · simp [matchRegexsLoop, h]
    · simp [matchRegexsLoop, h, ih]

theorem matchRegexs_iff (L : RegexpLib) (str : String) (rules : List L.Regexp) :
    matchRegexs L str rules = true ↔
      rules = [] ∨ ∃ re ∈ rules, L.MatchString re str = true := by
  unfold matchRegexs
  cases rules with
  | nil => simp
  | cons r rest =>
    rw [if_neg (by simp), matchRegexsLoop_iff]
    simp

/-! ## C2, C3: rule matching -/

/-- C2: `JsonRule.match` holds exactly when each of the three compiled
pattern sets is empty or has a pattern matching its request field: method
set against the method, host set against the Host, URL set against the
request URI. -/
theorem JsonRule_match_iff (L : RegexpLib) (r : JsonRule L.Regexp) (req : Request) :
    r.match L req = true ↔
      (r.method_regex = [] ∨ ∃ re ∈ r.method_regex, L.MatchString re req.Method = true) ∧
      (r.host_regex = [] ∨ ∃ re ∈ r.host_regex, L.MatchString re req.Host = true) ∧
      (r.url_regex = [] ∨ ∃ re ∈ r.url_regex, L.MatchString re req.RequestURI = true) := by
  unfold JsonRule.match
  rw [Bool.and_eq_true, Bool.and_eq_true, matchRegexs_iff, matchRegexs_iff, matchRegexs_iff,
    and_assoc]

/-- C3: `matchRegexs` is true on an empty pattern set; on a non-empty set it
is true exactly when some pattern of the set matches a span `i..j` of the
value (containment: with the pattern `b` the value `abc` matches although
the whole of `abc` is no match of `b`); and a rule whose three compiled sets
are empty matches every request. -/
theorem matchRegexs_spec (L : RegexpLib) (value : String) (p : L.Regexp)
    (ps : List L.Regexp) :
    matchRegexs L value [] = true ∧
    (matchRegexs L value (p :: ps) = true ↔
      ∃ re ∈ p :: ps, ∃ i j, i ≤ j ∧ j ≤ value.length ∧ L.spanMatch re value i j = true) ∧
    (∃ b, goRegexp.Compile "b" = .ok b ∧ matchRegexs goRegexp "abc" [b] = true ∧
      goRegexp.spanMatch b "abc" 0 3 = false ∧ goRegexp.spanMatch b "abc" 1 2 = true) ∧
    (∀ (Method Host URL Proxy : List String) (Attr : List (String × String)) (req : Request),
      (JsonRule.mk Method Host URL Proxy Attr [] [] [] : JsonRule L.Regexp).match L req
        = true) := by
  refine ⟨rfl, ?_, ⟨Re.cat (Re.lit 'b') Re.empty, rfl, rfl, rfl, rfl⟩, ?_⟩
  · rw [matchRegexs_iff]
    simp only [MatchString_iff]
    simp
  · intro Method Host URL Proxy Attr req
    rfl

/-! ## Lemmas on `SelectProxy` -/

theorem matchStage_none (L : RegexpLib) (req : Request) (pn : List String)
    (rules : List (JsonRule L.Regexp)) (h : ∀ q ∈ rules, q.match L req = false) :
    SelectProxy.matchStage L req pn rules = (pn, false) := by
  induction rules with
  | nil => rfl
  | cons r rest ih =>
    have hr : r.match L req = false := h r (List.mem_cons_self _ _)
    simp only [SelectProxy.matchStage, hr]
    exact ih fun q hq => h q (List.mem_cons_of_mem _ hq)

theorem matchStage_first (L : RegexpLib) (req : Request) (pn : List String)
    (pre post : List (JsonRule L.Regexp)) (r : JsonRule L.Regexp)
    (hpre : ∀ q ∈ pre, q.match L req = false) (hr : r.match L req = true) :
    SelectProxy.matchStage L req pn (pre ++ r :: post) = (r.Proxy, true) := by
  induction pre with
  | nil => simp [SelectProxy.matchStage, hr]
  | cons q rest ih =>
    have hq : q.match L req = false := hpre q (List.mem_cons_self _ _)
    simp only [List.cons_append, SelectProxy.matchStage, hq]
    exact ih fun x hx => hpre x (List.mem_cons_of_mem _ hx)

theorem matchStage_snd_false (L : RegexpLib) (req : Request) (pn : List String)
    (rules : List (JsonRule L.Regexp)) :
    (SelectProxy.matchStage L req pn rules).2 = false ↔ ∀ q ∈ rules, q.match L req = false := by
  induction rules with
  | nil => simp [SelectProxy.matchStage]
  | cons r rest ih =>
    by_cases hr : r.match L req = true
    · simp [SelectProxy.matchStage, hr]
    · have hr2 : r.match L req = false := by simpa using hr
      simp [SelectProxy.matchStage, hr2, ih]

theorem resolveLoop_fst {L : RegexpLib} (E : Env L) (req : Request) (names : List String)
    (pm : List RemoteConnectionManager) :
    (SelectProxy.resolveLoop E req names pm).1 =
      pm ++ names.flatMap fun n => (SelectProxy.resolveName E req n).1 := by
  induction names generalizing pm with
  | nil => simp [SelectProxy.resolveLoop]
  | cons n rest ih => simp [SelectProxy.resolveLoop, ih]

theorem resolveLoop_snd {L : RegexpLib} (E : Env L) (req : Request) (names : List String)
    (pm : List RemoteConnectionManager) :
    (SelectProxy.resolveLoop E req names pm).2 =
      names.flatMap fun n => (SelectProxy.resolveName E req n).2 := by
  induction names generalizing pm with
  | nil => simp [SelectProxy.resolveLoop]
  | cons n rest ih => simp [SelectProxy.resolveLoop, ih]

theorem resolveName_length {L : RegexpLib} (E : Env L) (req : Request) (n : String) :
    (SelectProxy.resolveName E req n).1.length ≤ 1 := by
  unfold SelectProxy.resolveName
  simp only
  split_ifs <;> first | simp | (split <;> simp)

theorem resolveName_events {L : RegexpLib} (E : Env L) (req : Request) (n : String) :
    ∀ e ∈ (SelectProxy.resolveName E req n).2, ∃ m, e = Event.logNoProxy m := by
  unfold SelectProxy.resolveName
  simp only
  split_ifs <;> first | simp | (split <;> simp)

theorem resolveLoop_events {L : RegexpLib} (E : Env L) (req : Request) (names : List String)
    (pm : List RemoteConnectionManager) :
    ∀ e ∈ (SelectProxy.resolveLoop E req names pm).2, ∃ m, e = Event.logNoProxy m := by
  rw [resolveLoop_snd]
  intro e he
  rw [List.mem_flatMap] at he
  obtain ⟨n, _, hn⟩ := he
  exact resolveName_events E req n e hn

theorem hostsStage_events {L : RegexpLib} (E : Env L) (req : Request) (host port : String)
    (st : List String × Bool) :
    ∀ e ∈ (SelectProxy.hostsStage E req host port st).2,
      e = Event.lookupReachableMappingHost req (JoinHostPort host port) := by
  unfold SelectProxy.hostsStage
  simp only
  split_ifs <;> simp

theorem SelectProxy_not_local {L : RegexpLib} (E : Env L) (req : Request) (conn : Conn)
    (isHttpsConn : Bool) (hself : SelectProxy.isSelf E req = false)
    (hredir : (!isHttpsConn && E.needRedirectHttpsHost req.Host) = false) :
    SelectProxy E req conn isHttpsConn =
      (some (SelectProxy.resolveLoop E req (SelectProxy.proxyNames E req isHttpsConn).1 []).1,
        (SelectProxy.proxyNames E req isHttpsConn).2 ++
          (SelectProxy.resolveLoop E req (SelectProxy.proxyNames E req isHttpsConn).1 []).2) := by
  unfold SelectProxy
  rw [hself, hredir]
  simp

theorem exists_first_match (L : RegexpLib) (req : Request) (rules : List (JsonRule L.Regexp))
    (h : ∃ q ∈ rules, q.match L req = true) :
    ∃ pre r post, rules = pre ++ r :: post ∧ (∀ q ∈ pre, q.match L req = false) ∧
      r.match L req = true := by
  induction rules with
  | nil => simp at h
  | cons a rest ih =>
    by_cases ha : a.match L req = true
    · exact ⟨[], a, rest, rfl, by simp, ha⟩
    · have ha2 : a.match L req = false := by simpa using ha
      obtain ⟨q, hq, hqm⟩ := h
      rcases List.mem_cons.mp hq with rfl | hq
      · exact absurd hqm ha
      · obtain ⟨pre, r, post, hrules, hpre, hr⟩ := ih ⟨q, hq, hqm⟩
        refine ⟨a :: pre, r, post, by simp [hrules], ?_, hr⟩
        intro x hx
        rcases List.mem_cons.mp hx with rfl | hx
        · exact ha2
        · exact hpre x hx

theorem proxyNames_first_match {L : RegexpLib} (E : Env L) (req : Request) (isHttpsConn : Bool)
    (pre post : List (JsonRule L.Regexp)) (r : JsonRule L.Regexp)
    (hrules : E.spac.rules = pre ++ r :: post)
    (hpre : ∀ q ∈ pre, q.match L req = false) (hr : r.match L req = true) :
    SelectProxy.proxyNames E req isHttpsConn = (r.Proxy, []) := by
  unfold SelectProxy.proxyNames
  simp only [hrules, matchStage_first L req _ pre post r hpre hr]
  simp [SelectProxy.crlfStage, SelectProxy.hostsStage]

/-! ## C1: the first matching rule decides -/

/-- C1: for a request that is not handled locally, if some rule matches then
the rule list splits at its earliest matching rule `r`, the target-name list
that is resolved is exactly `r.Proxy` (no fallback replaces it and the prober
is not called), and the returned handlers are the resolution of `r.Proxy`. -/
theorem SelectProxy_first_matching_rule {L : RegexpLib} (E : Env L) (req : Request)
    (conn : Conn) (isHttpsConn : Bool)
    (hself : SelectProxy.isSelf E req = false)
    (hredir : (!isHttpsConn && E.needRedirectHttpsHost req.Host) = false)
    (hex : ∃ q ∈ E.spac.rules, q.match L req = true) :
    ∃ pre r post, E.spac.rules = pre ++ r :: post ∧
      (∀ q ∈ pre, q.match L req = false) ∧ r.match L req = true ∧
      SelectProxy.proxyNames E req isHttpsConn = (r.Proxy, []) ∧
      SelectProxy E req conn isHttpsConn =
        (some (r.Proxy.flatMap fun n => (SelectProxy.resolveName E req n).1),
          r.Proxy.flatMap fun n => (SelectProxy.resolveName E req n).2) := by
  obtain ⟨pre, r, post, hrules, hpre, hr⟩ := exists_first_match L req E.spac.rules hex
  have hn := proxyNames_first_match E req isHttpsConn pre post r hrules hpre hr
  refine ⟨pre, r, post, hrules, hpre, hr, hn, ?_⟩
  rw [SelectProxy_not_local E req conn isHttpsConn hself hredir, hn, resolveLoop_fst,
    resolveLoop_snd]
  simp

/-- C1 at a concrete input: three rules, the first does not match, the
second and the third both match. -/
theorem SelectProxy_first_matching_rule_witness :
    ∃ pre r post,
      (exampleEnv [ruleHostZ ["C4"], ruleOf Re [] ["Direct"], ruleOf Re [] ["GAE"]] true 1
        (fun _ => false) (fun _ => true) (fun _ => true)).spac.rules = pre ++ r :: post ∧
      (∀ q ∈ pre, q.match goRegexp (exampleReq "example.com") = false) ∧
      r.match goRegexp (exampleReq "example.com") = true ∧
      SelectProxy.proxyNames
        (exampleEnv [ruleHostZ ["C4"], ruleOf Re [] ["Direct"], ruleOf Re [] ["GAE"]] true 1
          (fun _ => false) (fun _ => true) (fun _ => true))
        (exampleReq "example.com") false = (r.Proxy, []) ∧
      SelectProxy
        (exampleEnv [ruleHostZ ["C4"], ruleOf Re [] ["Direct"], ruleOf Re [] ["GAE"]] true 1
          (fun _ => false) (fun _ => true) (fun _ => true))
        (exampleReq "example.com") 7 false =
        (some (r.Proxy.flatMap fun n => (SelectProxy.resolveName
            (exampleEnv [ruleHostZ ["C4"], ruleOf Re [] ["Direct"], ruleOf Re [] ["GAE"]] true 1
              (fun _ => false) (fun _ => true) (fun _ => true))
            (exampleReq "example.com") n).1),
          r.Proxy.flatMap fun n => (SelectProxy.resolveName
            (exampleEnv [ruleHostZ ["C4"], ruleOf Re [] ["Direct"], ruleOf Re [] ["GAE"]] true 1
              (fun _ => false) (fun _ => true) (fun _ => true))
            (exampleReq "example.com") n).2) :=
  SelectProxy_first_matching_rule _ (exampleReq "example.com") 7 false (by decide) (by decide)
    ⟨ruleOf Re [] ["Direct"], by simp [exampleEnv], by rfl⟩

/-! ## C4: name resolution -/

theorem resolveName_congr {L : RegexpLib} (E E2 : Env L) (req req2 : Request) (n : String)
    (hn : E2.names = E.names) (hd : E2.spac.defaultRule = E.spac.defaultRule)
    (hr : E2.registedRemoteConnManager = E.registedRemoteConnManager)
    (hg : E2.google_enable = E.google_enable) (hf : E2.simpleFold = E.simpleFold)
    (hh : req2.Host = req.Host) :
    SelectProxy.resolveName E2 req2 n = SelectProxy.resolveName E req n := by
  unfold SelectProxy.resolveName
  rw [hn, hd, hr, hg, hf, hh]

theorem resolveLoop_congr {L : RegexpLib} (E E2 : Env L) (req req2 : Request)
    (names : List String) (pm : List RemoteConnectionManager)
    (hn : E2.names = E.names) (hd : E2.spac.defaultRule = E.spac.defaultRule)
    (hr : E2.registedRemoteConnManager = E.registedRemoteConnManager)
    (hg : E2.google_enable = E.google_enable) (hf : E2.simpleFold = E.simpleFold)
    (hh : req2.Host = req.Host) :
    SelectProxy.resolveLoop E2 req2 names pm = SelectProxy.resolveLoop E req names pm := by
  induction names generalizing pm with
  | nil => rfl
  | cons n rest ih =>
    simp only [SelectProxy.resolveLoop, resolveName_congr E E2 req req2 n hn hd hr hg hf hh, ih]

theorem resolveName_direct {L : RegexpLib} (E : Env L) (req : Request)
    (hD : E.names.DIRECT_NAME = "Direct") (hG : E.names.GAE_NAME = "GAE")
    (hC4 : "Direct" ≠ E.names.C4_NAME) (hGo : "Direct" ≠ E.names.GOOGLE_NAME)
    (hGh : "Direct" ≠ E.names.GOOGLE_HTTP_NAME) (hGs : "Direct" ≠ E.names.GOOGLE_HTTPS_NAME)
    (hfD : EqualFold E.simpleFold "Direct" E.names.DEFAULT_NAME = false) :
    ∃ t, SelectProxy.resolveName E req "Direct" =
      ([RemoteConnectionManager.forward ⟨false, t⟩], []) := by
  unfold SelectProxy.resolveName
  simp only [hfD, hG, hD, Bool.false_eq_true, if_false]
  have h1 : ¬("Direct" = "GAE" ∨ "Direct" = E.names.C4_NAME) := by
    rintro (h | h)
    · exact absurd h (by decide)
    · exact hC4 h
  have h2 : ¬("Direct" = E.names.GOOGLE_NAME ∨ "Direct" = E.names.GOOGLE_HTTP_NAME) := by
    rintro (h | h)
    · exact hGo h
    · exact hGh h
  rw [if_neg h1, if_neg h2, if_neg hGs, if_pos trivial]
  exact ⟨_, rfl⟩

theorem resolveName_gae {L : RegexpLib} (E : Env L) (req : Request)
    (hG : E.names.GAE_NAME = "GAE")
    (hfG : EqualFold E.simpleFold "GAE" E.names.DEFAULT_NAME = false) :
    SelectProxy.resolveName E req "GAE" =
      match E.registedRemoteConnManager "GAE" with
      | some v => ([v], [])
      | none => ([], [Event.logNoProxy "GAE"]) := by
  unfold SelectProxy.resolveName
  simp only [hfG, hG, Bool.false_eq_true, if_false]
  rw [if_pos (Or.inl trivial)]

/-- C4: the handler list is the concatenation, in name-list order, of what
each name resolves to, and a name contributes at most one handler; where
the direct name is `Direct` and the GAE name is `GAE` (neither being the
default alias nor another reserved name), the list `Direct`, `GAE` resolves
to the direct Forward followed by the registered GAE handler, and to the
direct Forward alone when no GAE handler is registered; the result depends
only on the name list, the request Host, the name constants, the default
target, the registry, the relay switch and the case-folding table. -/
theorem resolve_order_preserving {L : RegexpLib} (E : Env L) (req : Request)
    (hD : E.names.DIRECT_NAME = "Direct") (hG : E.names.GAE_NAME = "GAE")
    (hC4 : "Direct" ≠ E.names.C4_NAME) (hGo : "Direct" ≠ E.names.GOOGLE_NAME)
    (hGh : "Direct" ≠ E.names.GOOGLE_HTTP_NAME) (hGs : "Direct" ≠ E.names.GOOGLE_HTTPS_NAME)
    (hfD : EqualFold E.simpleFold "Direct" E.names.DEFAULT_NAME = false)
    (hfG : EqualFold E.simpleFold "GAE" E.names.DEFAULT_NAME = false) :
    (∀ names, (SelectProxy.resolveLoop E req names []).1 =
      names.flatMap fun n => (SelectProxy.resolveName E req n).1) ∧
    (∀ n, (SelectProxy.resolveName E req n).1.length ≤ 1) ∧
    (∀ v, E.registedRemoteConnManager "GAE" = some v →
      ∃ t, (SelectProxy.resolveLoop E req ["Direct", "GAE"] []).1 =
        [RemoteConnectionManager.forward ⟨false, t⟩, v]) ∧
    (E.registedRemoteConnManager "GAE" = none →
      ∃ t, (SelectProxy.resolveLoop E req ["Direct", "GAE"] []).1 =
        [RemoteConnectionManager.forward ⟨false, t⟩]) ∧
    (∀ (E2 : Env L) (req2 : Request) (names : List String),
      E2.names = E.names → E2.spac.defaultRule = E.spac.defaultRule →
      E2.registedRemoteConnManager = E.registedRemoteConnManager →
      E2.google_enable = E.google_enable → E2.simpleFold = E.simpleFold →
      req2.Host = req.Host →
      SelectProxy.resolveLoop E2 req2 names [] = SelectProxy.resolveLoop E req names []) := by
  obtain ⟨t, ht⟩ := resolveName_direct E req hD hG hC4 hGo hGh hGs hfD
  have hg := resolveName_gae E req hG hfG
  refine ⟨fun names => by simp [resolveLoop_fst], resolveName_length E req, ?_, ?_, ?_⟩
  · intro v hv
    refine ⟨t, ?_⟩
    rw [resolveLoop_fst]
    simp [ht, hg, hv]
  · intro hv
    refine ⟨t, ?_⟩
    rw [resolveLoop_fst]
    simp [ht, hg, hv]
  · intro E2 req2 names hn hd hr hgo hf hh
    exact resolveLoop_congr E E2 req req2 names [] hn hd hr hgo hf hh

/-- C4 at a concrete environment in which GAE is registered. -/
theorem resolve_order_preserving_witness :
    (∀ names, (SelectProxy.resolveLoop
        (exampleEnv [] true 0 (fun _ => false) (fun _ => false) (fun _ => false))
        (exampleReq "example.com") names []).1 =
      names.flatMap fun n => (SelectProxy.resolveName
        (exampleEnv [] true 0 (fun _ => false) (fun _ => false) (fun _ => false))
        (exampleReq "example.com") n).1) ∧
    (SelectProxy.resolveLoop
        (exampleEnv [] true 0 (fun _ => false) (fun _ => false) (fun _ => false))
        (exampleReq "example.com") ["Direct", "GAE"] []).1 =
      [RemoteConnectionManager.forward ⟨false, "http://example.com:80"⟩,
        RemoteConnectionManager.manager 1] ∧
    (SelectProxy.resolveLoop
        (exampleEnv [] false 0 (fun _ => false) (fun _ => false) (fun _ => false))
        (exampleReq "example.com") ["Direct", "GAE"] []).1 =
      [RemoteConnectionManager.forward ⟨false, "http://example.com:80"⟩] :=
  ⟨(resolve_order_preserving
      (exampleEnv [] true 0 (fun _ => false) (fun _ => false) (fun _ => false))
      (exampleReq "example.com") rfl rfl (by decide) (by decide) (by decide) (by decide)
      (by decide) (by decide)).1, by decide, by decide⟩

/-! ## C5, C6: requests handled locally -/

/-- C5: `SelectProxy` returns nil exactly when the request is a self-request
or the connection is plain HTTP and the host is on the must-be-HTTPS list;
on a TLS connection no redirect is emitted; and a non-nil result can be the
empty list (default target GAE with no GAE handler registered). -/
theorem SelectProxy_nil_iff {L : RegexpLib} (E : Env L) (req : Request) (conn : Conn)
    (isHttpsConn : Bool) :
    ((SelectProxy E req conn isHttpsConn).1 = none ↔
      (SelectProxy.isSelf E req = true ∨
        (isHttpsConn = false ∧ E.needRedirectHttpsHost req.Host = true))) ∧
    (∀ c r, Event.redirectHttps c r ∉ (SelectProxy E req conn true).2) ∧
    (SelectProxy (exampleEnv [] false 0 (fun _ => true) (fun _ => false) (fun _ => false))
      (exampleReq "example.com") conn true).1 = some [] := by
  refine ⟨?_, ?_, by rfl⟩
  · unfold SelectProxy
    by_cases hs : SelectProxy.isSelf E req = true
    · simp [hs]
    · by_cases hr : (!isHttpsConn && E.needRedirectHttpsHost req.Host) = true
      · simp only [hs, hr, if_true]
        simp only [Bool.and_eq_true, Bool.not_eq_true'] at hr
        simp [hr]
      · simp only [hs, hr]
        simp only [Bool.and_eq_true, Bool.not_eq_true'] at hr
        simpa using hr
  · intro c r hmem
    unfold SelectProxy at hmem
    by_cases hs : SelectProxy.isSelf E req = true
    · simp [hs] at hmem
    · simp only [hs, Bool.not_true, Bool.false_and, Bool.false_eq_true, if_false,
        List.mem_append] at hmem
      rcases hmem with h | h
      · have := hostsStage_events E req _ _ _ _ h
        simp at this
      · obtain ⟨m, hm⟩ := resolveLoop_events E req _ _ _ h
        simp at hm

theorem indexByte_none (c : Char) (l : List Char) (h : c ∉ l) : indexByte c l = none := by
  induction l with
  | nil => rfl
  | cons d ds ih =>
    have hd : d ≠ c := fun e => h (e ▸ List.mem_cons_self _ _)
    simp [indexByte, hd, ih fun hm => h (List.mem_cons_of_mem _ hm)]

theorem lastIndexByte_none (c : Char) (l : List Char) (h : c ∉ l) :
    lastIndexByte c l = none := by
  induction l with
  | nil => rfl
  | cons d ds ih =>
    have hd : d ≠ c := fun e => h (e ▸ List.mem_cons_self _ _)
    simp [lastIndexByte, hd, ih fun hm => h (List.mem_cons_of_mem _ hm)]

theorem splitHostPort_loopback (port : String)
    (hport : ':' ∉ port.data ∧ '[' ∉ port.data ∧ ']' ∉ port.data) :
    SplitHostPort ("127.0.0.1:" ++ port) = some ("127.0.0.1", port) := by
  obtain ⟨h1, h2, h3⟩ := hport
  have hdata : ("127.0.0.1:" ++ port).data =
      '1' :: '2' :: '7' :: '.' :: '0' :: '.' :: '0' :: '.' :: '1' :: ':' :: port.data := by
    rw [String.data_append]
    rfl
  unfold SplitHostPort
  rw [hdata]
  have e1 : splitHostPortList
      ('1' :: '2' :: '7' :: '.' :: '0' :: '.' :: '0' :: '.' :: '1' :: ':' :: port.data) =
      some (['1', '2', '7', '.', '0', '.', '0', '.', '1'], port.data) := by
    simp [splitHostPortList, lastIndexByte, indexByte, lastIndexByte_none _ _ h1,
      indexByte_none _ _ h2, indexByte_none _ _ h3]
  rw [e1]
  rfl

/-- C6: when the Host is `127.0.0.1:` followed by the proxy port (a port
text, without colon or bracket), `SelectProxy` returns nil and its only
effect is one call of the self-administration handler: no redirect, no
prober call, whatever the rules, lists and switches of the environment,
the connection and the TLS flag. -/
theorem SelectProxy_self_request {L : RegexpLib} (E : Env L) (req : Request) (conn : Conn)
    (isHttpsConn : Bool)
    (hport : ':' ∉ E.ProxyPort.data ∧ '[' ∉ E.ProxyPort.data ∧ ']' ∉ E.ProxyPort.data)
    (hhost : req.Host = "127.0.0.1:" ++ E.ProxyPort) :
    SelectProxy E req conn isHttpsConn = (none, [Event.handleSelfHttpRequest req conn]) := by
  have hself : SelectProxy.isSelf E req = true := by
    unfold SelectProxy.isSelf SelectProxy.hostPort
    rw [hhost, splitHostPort_loopback E.ProxyPort hport]
    simp
  unfold SelectProxy
  rw [if_pos hself]

/-- C6 at a concrete input: a rule that matches everything, a must-be-HTTPS
list and a CRLF set that hold every host, host mapping enabled. -/
theorem SelectProxy_self_request_witness :
    SelectProxy (exampleEnv [ruleOf Re [] ["Direct"]] true 1
        (fun _ => true) (fun _ => true) (fun _ => true))
      (exampleReq "127.0.0.1:48100") 3 false =
      (none, [Event.handleSelfHttpRequest (exampleReq "127.0.0.1:48100") 3]) :=
  SelectProxy_self_request _ (exampleReq "127.0.0.1:48100") 3 false
    (by decide) (by decide)

/-! ## C7, C8: the fallbacks -/

theorem exists_match_of_not_all (L : RegexpLib) (req : Request)
    (rules : List (JsonRule L.Regexp)) (h : ¬∀ q ∈ rules, q.match L req = false) :
    ∃ q ∈ rules, q.match L req = true := by
  by_contra hc
  apply h
  intro q hq
  by_contra hm
  exact hc ⟨q, hq, by simpa using hm⟩

theorem proxyNames_of_match {L : RegexpLib} (E : Env L) (req : Request) (isHttpsConn : Bool)
    (h : ∃ q ∈ E.spac.rules, q.match L req = true) :
    ∃ r ∈ E.spac.rules, SelectProxy.proxyNames E req isHttpsConn = (r.Proxy, []) := by
  obtain ⟨pre, r, post, hrules, hpre, hr⟩ := exists_first_match L req E.spac.rules h
  exact ⟨r, by simp [hrules], proxyNames_first_match E req isHttpsConn pre post r hrules hpre hr⟩

theorem proxyNames_crlf {L : RegexpLib} (E : Env L) (req : Request) (isHttpsConn : Bool)
    (hno : ∀ q ∈ E.spac.rules, q.match L req = false) (hplain : isHttpsConn = false)
    (hin : E.needInjectCRLF req.Host = true) :
    SelectProxy.crlfStage E req isHttpsConn
        (SelectProxy.matchStage L req [E.spac.defaultRule] E.spac.rules) =
      (["Direct", E.spac.defaultRule], true) ∧
    SelectProxy.proxyNames E req isHttpsConn = (["Direct", E.spac.defaultRule], []) := by
  have hm := matchStage_none L req [E.spac.defaultRule] E.spac.rules hno
  have hc : SelectProxy.crlfStage E req isHttpsConn
      (SelectProxy.matchStage L req [E.spac.defaultRule] E.spac.rules) =
      (["Direct", E.spac.defaultRule], true) := by
    rw [hm]
    simp [SelectProxy.crlfStage, hplain, hin]
  refine ⟨hc, ?_⟩
  unfold SelectProxy.proxyNames
  simp only [hc]
  simp [SelectProxy.hostsStage]

/-- C7: for a request that is not handled locally, the CRLF fallback sets
the name list to `Direct`, default target when no rule matched, the
connection is plain HTTP and the host is in the CRLF-sensitive set (the
prober is then not called); in every other case the CRLF step leaves the
name list and the matched flag as the rule scan left them; and when a rule
matched or the connection is TLS, replacing the CRLF-sensitive set by any
other set leaves the selected name list and the result of `SelectProxy`
unchanged. -/
theorem crlf_fallback {L : RegexpLib} (E : Env L) (req : Request) (conn : Conn)
    (isHttpsConn : Bool)
    (hself : SelectProxy.isSelf E req = false)
    (hredir : (!isHttpsConn && E.needRedirectHttpsHost req.Host) = false) :
    (((∀ q ∈ E.spac.rules, q.match L req = false) ∧ isHttpsConn = false ∧
        E.needInjectCRLF req.Host = true) →
      SelectProxy.crlfStage E req isHttpsConn
          (SelectProxy.matchStage L req [E.spac.defaultRule] E.spac.rules) =
        (["Direct", E.spac.defaultRule], true) ∧
      SelectProxy.proxyNames E req isHttpsConn = (["Direct", E.spac.defaultRule], []) ∧
      (SelectProxy E req conn isHttpsConn).1 =
        some (["Direct", E.spac.defaultRule].flatMap fun n =>
          (SelectProxy.resolveName E req n).1)) ∧
    (¬((∀ q ∈ E.spac.rules, q.match L req = false) ∧ isHttpsConn = false ∧
        E.needInjectCRLF req.Host = true) →
      SelectProxy.crlfStage E req isHttpsConn
          (SelectProxy.matchStage L req [E.spac.defaultRule] E.spac.rules) =
        SelectProxy.matchStage L req [E.spac.defaultRule] E.spac.rules) ∧
    (((∃ q ∈ E.spac.rules, q.match L req = true) ∨ isHttpsConn = true) →
      ∀ crlf : String → Bool,
        SelectProxy.proxyNames { E with needInjectCRLF := crlf } req isHttpsConn =
          SelectProxy.proxyNames E req isHttpsConn ∧
        SelectProxy { E with needInjectCRLF := crlf } req conn isHttpsConn =
          SelectProxy E req conn isHttpsConn) := by
  refine ⟨?_, ?_, ?_⟩
  · rintro ⟨hno, hplain, hin⟩
    obtain ⟨hc, hn⟩ := proxyNames_crlf E req isHttpsConn hno hplain hin
    refine ⟨hc, hn, ?_⟩
    rw [SelectProxy_not_local E req conn isHttpsConn hself hredir, hn, resolveLoop_fst]
    simp
  · intro hnot
    unfold SelectProxy.crlfStage
    split_ifs with hc
    · exfalso
      apply hnot
      simp only [Bool.and_eq_true, Bool.not_eq_true'] at hc
      exact ⟨(matchStage_snd_false L req _ _).mp hc.1.2, hc.1.1, hc.2⟩
    · rfl
  · intro hcase crlf
    have hnames : SelectProxy.proxyNames { E with needInjectCRLF := crlf } req isHttpsConn =
        SelectProxy.proxyNames E req isHttpsConn := by
      rcases hcase with hex | htls
      · obtain ⟨pre, r, post, hrules, hpre, hr⟩ := exists_first_match L req E.spac.rules hex
        rw [proxyNames_first_match E req isHttpsConn pre post r hrules hpre hr,
          proxyNames_first_match { E with needInjectCRLF := crlf } req isHttpsConn pre post r
            hrules hpre hr]
      · subst htls
        rfl
    refine ⟨hnames, ?_⟩
    have hself2 : SelectProxy.isSelf { E with needInjectCRLF := crlf } req = false := hself
    rw [SelectProxy_not_local E req conn isHttpsConn hself hredir,
      SelectProxy_not_local { E with needInjectCRLF := crlf } req conn isHttpsConn hself2 hredir,
      hnames,
      resolveLoop_congr E { E with needInjectCRLF := crlf } req req _ [] rfl rfl rfl rfl rfl rfl]

/-- C7 at a concrete input: no rule, plain HTTP, every host CRLF-sensitive,
host mapping enabled and the prober answering yes. -/
theorem crlf_fallback_witness :
    SelectProxy.proxyNames
      (exampleEnv [] true 1 (fun _ => false) (fun _ => true) (fun _ => true))
      (exampleReq "example.com") false = (["Direct", "GAE"], []) :=
  ((crlf_fallback (exampleEnv [] true 1 (fun _ => false) (fun _ => true) (fun _ => true))
    (exampleReq "example.com") 0 false (by decide) (by decide)).1
      ⟨by simp [exampleEnv], rfl, rfl⟩).2.1

theorem proxyNames_unmatched {L : RegexpLib} (E : Env L) (req : Request) (isHttpsConn : Bool)
    (hno : ∀ q ∈ E.spac.rules, q.match L req = false)
    (hcrlf : (!isHttpsConn && E.needInjectCRLF req.Host) = false) :
    SelectProxy.proxyNames E req isHttpsConn =
      SelectProxy.hostsStage E req (SelectProxy.hostPort req).1 (SelectProxy.hostPort req).2
        ([E.spac.defaultRule], false) := by
  unfold SelectProxy.proxyNames
  simp only [matchStage_none L req [E.spac.defaultRule] E.spac.rules hno]
  have hc : SelectProxy.crlfStage E req isHttpsConn ([E.spac.defaultRule], false) =
      ([E.spac.defaultRule], false) := by
    unfold SelectProxy.crlfStage
    have h2 : (!isHttpsConn && !false && E.needInjectCRLF req.Host) = false := by
      simpa using hcrlf
    rw [h2]
    rfl
  rw [hc]

/-- C8: for a request that is not handled locally, `SelectProxy` returns the
resolution of the selected name list.  When no rule matches and the CRLF
fallback does not apply: with host mapping enabled the prober is called once
for host:port (port 80 when the Host does not split), and a hit gives the
list `Direct`, default target, a miss the list of the default target alone;
with host mapping disabled the prober is not called and the list is the
default target alone.  When a rule matches or the CRLF fallback applies, the
prober is not called. -/
theorem reachability_fallback {L : RegexpLib} (E : Env L) (req : Request) (conn : Conn)
    (isHttpsConn : Bool)
    (hself : SelectProxy.isSelf E req = false)
    (hredir : (!isHttpsConn && E.needRedirectHttpsHost req.Host) = false) :
    SelectProxy E req conn isHttpsConn =
      (some ((SelectProxy.proxyNames E req isHttpsConn).1.flatMap fun n =>
          (SelectProxy.resolveName E req n).1),
        (SelectProxy.proxyNames E req isHttpsConn).2 ++
          (SelectProxy.proxyNames E req isHttpsConn).1.flatMap fun n =>
            (SelectProxy.resolveName E req n).2) ∧
    (SplitHostPort req.Host = none → SelectProxy.hostPort req = (req.Host, "80")) ∧
    (((∀ q ∈ E.spac.rules, q.match L req = false) ∧
        (!isHttpsConn && E.needInjectCRLF req.Host) = false) →
      (E.hostsEnable ≠ E.HOSTS_DISABLE →
        (E.lookupReachableMappingHost req
          (JoinHostPort (SelectProxy.hostPort req).1 (SelectProxy.hostPort req).2)).2 = true →
        SelectProxy.proxyNames E req isHttpsConn =
          (["Direct", E.spac.defaultRule],
            [Event.lookupReachableMappingHost req
              (JoinHostPort (SelectProxy.hostPort req).1 (SelectProxy.hostPort req).2)])) ∧
      (E.hostsEnable ≠ E.HOSTS_DISABLE →
        (E.lookupReachableMappingHost req
          (JoinHostPort (SelectProxy.hostPort req).1 (SelectProxy.hostPort req).2)).2 = false →
        SelectProxy.proxyNames E req isHttpsConn =
          ([E.spac.defaultRule],
            [Event.lookupReachableMappingHost req
              (JoinHostPort (SelectProxy.hostPort req).1 (SelectProxy.hostPort req).2)])) ∧
      (E.hostsEnable = E.HOSTS_DISABLE →
        SelectProxy.proxyNames E req isHttpsConn = ([E.spac.defaultRule], []))) ∧
    (¬((∀ q ∈ E.spac.rules, q.match L req = false) ∧
        (!isHttpsConn && E.needInjectCRLF req.Host) = false) →
      (SelectProxy.proxyNames E req isHttpsConn).2 = []) := by
  refine ⟨?_, ?_, ?_, ?_⟩
  · rw [SelectProxy_not_local E req conn isHttpsConn hself hredir, resolveLoop_fst,
      resolveLoop_snd]
    simp
  · intro h
    simp [SelectProxy.hostPort, h]
  · rintro ⟨hno, hcrlf⟩
    rw [proxyNames_unmatched E req isHttpsConn hno hcrlf]
    refine ⟨?_, ?_, ?_⟩
    · intro hen hhit
      simp [SelectProxy.hostsStage, hen, hhit]
    · intro hen hmiss
      simp [SelectProxy.hostsStage, hen, hmiss]
    · intro hdis
      simp [SelectProxy.hostsStage, hdis]
  · intro hnot
    by_cases hno : ∀ q ∈ E.spac.rules, q.match L req = false
    · have hcr : (!isHttpsConn && E.needInjectCRLF req.Host) = true := by
        by_contra hc
        exact hnot ⟨hno, by simpa using hc⟩
      simp only [Bool.and_eq_true, Bool.not_eq_true'] at hcr
      rw [(proxyNames_crlf E req isHttpsConn hno hcr.1 hcr.2).2]
    · obtain ⟨r, _, hr⟩ :=
        proxyNames_of_match E req isHttpsConn (exists_match_of_not_all L req _ hno)
      rw [hr]

/-- C8 at concrete inputs: no rule, TLS connection, host mapping enabled;
a Host without port is probed as `example.com:80`, with a hit and with a
miss. -/
theorem reachability_fallback_witness :
    SelectProxy.proxyNames
        (exampleEnv [] true 1 (fun _ => false) (fun _ => true) (fun _ => true))
        (exampleReq "example.com") true =
      (["Direct", "GAE"],
        [Event.lookupReachableMappingHost (exampleReq "example.com") "example.com:80"]) ∧
    SelectProxy.proxyNames
        (exampleEnv [] true 1 (fun _ => false) (fun _ => true) (fun _ => false))
        (exampleReq "example.com") true =
      (["GAE"],
        [Event.lookupReachableMappingHost (exampleReq "example.com") "example.com:80"]) :=
  ⟨((reachability_fallback
      (exampleEnv [] true 1 (fun _ => false) (fun _ => true) (fun _ => true))
      (exampleReq "example.com") 0 true (by decide) (by decide)).2.2.1
        ⟨by simp [exampleEnv], rfl⟩).1 (by decide) rfl,
   ((reachability_fallback
      (exampleEnv [] true 1 (fun _ => false) (fun _ => true) (fun _ => false))
      (exampleReq "example.com") 0 true (by decide) (by decide)).2.2.1
        ⟨by simp [exampleEnv], rfl⟩).2.1 (by decide) rfl⟩

/-! ## C9: policy load -/

theorem init_proxy (L : RegexpLib) (r : JsonRule L.Regexp) :
    (JsonRule.init L r).1.1.Proxy = r.Proxy := by
  unfold JsonRule.init
  simp only
  split_ifs <;> rfl

theorem initLoop_proxy (L : RegexpLib) (rules : List (JsonRule L.Regexp)) (e : Option String) :
    (InitSpac.initLoop L rules e).1.1.map (fun r => r.Proxy) = rules.map fun r => r.Proxy := by
  induction rules generalizing e with
  | nil => rfl
  | cons r rest ih => simp [InitSpac.initLoop, init_proxy, ih]

/-- Whatever compiles and whatever does not, an enabled policy whose rule
file is read activates one rule for every decoded rule, with its Proxy list. -/
theorem InitSpac_rules_proxy (L : RegexpLib) (N : Names) (C : Config) (file : String)
    (hen : (C.spacEnable.2 && C.spacEnable.1 == 0) = false)
    (hread : C.ReadFile (C.Home ++ if !C.spacScript.2 then "spac.json" else C.spacScript.1)
      = .ok file) :
    (InitSpac L N C).1.rules.map (fun r => r.Proxy) =
      (C.Unmarshal file).1.map fun r => r.Proxy := by
  unfold InitSpac
  simp only [hen, hread, Bool.false_eq_true, if_false]
  rw [initLoop_proxy]
  simp [JsonRule.decoded, Function.comp_def]

/-- C9 (the code at the failing input): the rule file decodes to two rules,
the first with host pattern `[`.  After `InitSpac` both rules are in the
policy, the first with no compiled host pattern; the only log line is the
one of `initRegexSlice`, `InitSpac` itself reports nothing; and a request
for a host that no pattern names is routed by the failed rule. -/
theorem InitSpac_activates_failed_list :
    (InitSpac goRegexp gsnovaNames failingConfig).1.rules.map
        (fun r => (r.Host, r.Proxy, r.host_regex.length)) =
      [(["["], ["Direct"], 0), (["example.com"], ["GAE"], 1)] ∧
    (InitSpac goRegexp gsnovaNames failingConfig).2 =
      [Event.logInvalidPattern "[" "missing closing ]"] ∧
    SelectProxy.proxyNames
        (exampleEnv (InitSpac goRegexp gsnovaNames failingConfig).1.rules true 0
          (fun _ => false) (fun _ => false) (fun _ => false))
        (exampleReq "other.org") true = (["Direct"], []) := by
  refine ⟨by rfl, by rfl, by rfl⟩

/-! ## C10: `initRegexSlice` -/

theorem replaceGo_single (c : Char) (new s : List Char) :
    replaceGo [c] new 0 s = s.flatMap fun d => if d = c then new else [d] := by
  induction s with
  | nil => rfl
  | cons d ds ih =>
    by_cases h : d = c
    · subst h
      simp [replaceGo, ih]
    · have h2 : ¬c = d := fun e => h e.symm
      simp [replaceGo, ih, h, h2]

theorem flatMap_flatMap_char (f g : Char → List Char) (l : List Char) :
    (l.flatMap f).flatMap g = l.flatMap fun c => (f c).flatMap g := by
  induction l with
  | nil => rfl
  | cons a as ih => simp [List.flatMap_cons, List.flatMap_append, ih]

theorem rewrite_eq_globSource (raw : String) :
    Replace (Replace (TrimSpace raw) "." "\\.") "*" ".*" = globSource raw := by
  have h1 : ∀ t : String, Replace t "." "\\." =
      ⟨t.data.flatMap fun d => if d = '.' then ['\\', '.'] else [d]⟩ := by
    intro t
    unfold Replace
    rw [if_neg (by decide)]
    exact congrArg String.mk (replaceGo_single '.' ['\\', '.'] t.data)
  have h2 : ∀ t : String, Replace t "*" ".*" =
      ⟨t.data.flatMap fun d => if d = '*' then ['.', '*'] else [d]⟩ := by
    intro t
    unfold Replace
    rw [if_neg (by decide)]
    exact congrArg String.mk (replaceGo_single '*' ['.', '*'] t.data)
  rw [h1, h2]
  unfold globSource TrimSpace
  simp only [flatMap_flatMap_char]
  congr 1
  apply congrArg (fun f => List.flatMap (trimSpaceList raw.data) f)
  funext c
  by_cases hd : c = '.'
  · subst hd
    decide
  · by_cases hs : c = '*'
    · subst hs
      decide
    · simp [hd, hs]

theorem initRegexSliceLoop_ok (L : RegexpLib) (rules : List String) (res acc : List L.Regexp)
    (h : List.Forall₂ (fun raw re => L.Compile (globSource raw) = .ok re) rules res) :
    initRegexSliceLoop L rules acc = ((acc ++ res, none), []) := by
  induction h generalizing acc with
  | nil => simp [initRegexSliceLoop]
  | cons hc _ ih =>
    simp only [initRegexSliceLoop, rewrite_eq_globSource, hc]
    rw [ih]
    simp

theorem initRegexSliceLoop_fail (L : RegexpLib) (pre post : List String) (bad err : String)
    (res acc : List L.Regexp)
    (h : List.Forall₂ (fun raw re => L.Compile (globSource raw) = .ok re) pre res)
    (hbad : L.Compile (globSource bad) = .error err) :
    initRegexSliceLoop L (pre ++ bad :: post) acc =
      (([], some err), [Event.logInvalidPattern bad err]) := by
  induction h generalizing acc with
  | nil => simp [initRegexSliceLoop, rewrite_eq_globSource, hbad]
  | cons hc _ ih =>
    simp only [List.cons_append, initRegexSliceLoop, rewrite_eq_globSource, hc]
    exact ih _

/-- C10 as stated fails: for the raw pattern of two stars the source handed
to the compiler is two wildcards, where the specification's rewriting of a
run gives one. -/
theorem initRegexSlice_star_run_counterexample :
    (initRegexSlice recordingLib ["**"]).1.1 = [".*.*"] ∧ globSourceSpec "**" = ".*" ∧
      (initRegexSlice recordingLib ["**"]).1.1 ≠ [globSourceSpec "**"] := by
  refine ⟨by rfl, by rfl, fun h => ?_⟩
  have h2 : ([".*.*"] : List String) = [".*"] := h
  exact absurd h2 (by decide)

/-- C10 (amended): the source handed to the compiler is the raw text trimmed
of surrounding whitespace with every `.` replaced by `\.` and every single
`*` replaced by `.*` (a run of two stars gives two wildcards).  If every
source compiles, the result is the compiled patterns, one per input and in
input order, without error or log line; if the first source that fails is
that of `bad`, the result is no pattern, the compiler's error and one log
line for `bad`. -/
theorem initRegexSlice_spec (L : RegexpLib) (rules : List String) :
    (∀ raw : String, (initRegexSlice recordingLib [raw]).1.1 = [globSource raw]) ∧
    globSource " *.example.com " = ".*\\.example\\.com" ∧ globSource "**" = ".*.*" ∧
    (∀ res : List L.Regexp,
      List.Forall₂ (fun raw re => L.Compile (globSource raw) = .ok re) rules res →
      initRegexSlice L rules = ((res, none), [])) ∧
    (∀ (pre post : List String) (bad err : String) (res : List L.Regexp),
      rules = pre ++ bad :: post →
      List.Forall₂ (fun raw re => L.Compile (globSource raw) = .ok re) pre res →
      L.Compile (globSource bad) = .error err →
      initRegexSlice L rules = (([], some err), [Event.logInvalidPattern bad err])) := by
  refine ⟨?_, by rfl, by rfl, ?_, ?_⟩
  · intro raw
    simp [initRegexSlice, initRegexSliceLoop, rewrite_eq_globSource, recordingLib]
  · intro res h
    unfold initRegexSlice
    rw [initRegexSliceLoop_ok L rules res [] h]
    simp
  · intro pre post bad err res hrules h hbad
    unfold initRegexSlice
    rw [hrules]
    exact initRegexSliceLoop_fail L pre post bad err res [] h hbad

/-- C10 (amended) at a concrete input: the second of three patterns fails. -/
theorem initRegexSlice_spec_witness :
    initRegexSlice goRegexp ["a", "[", "b"] =
      (([], some "missing closing ]"), [Event.logInvalidPattern "[" "missing closing ]"]) :=
  (initRegexSlice_spec goRegexp ["a", "[", "b"]).2.2.2.2 ["a"] ["b"] "[" "missing closing ]"
    [Re.cat (Re.lit 'a') Re.empty] rfl
    (List.Forall₂.cons (by rfl) List.Forall₂.nil) (by rfl)

/-! ## C11, C12, C13: resolution of one name -/

/-- C11: a name that equals the default-alias name under case folding
resolves to exactly what the default target name resolves to, handlers and
log lines alike, for the same request and environment. -/
theorem resolveName_default_alias {L : RegexpLib} (E : Env L) (req : Request) (name : String)
    (h : EqualFold E.simpleFold name E.names.DEFAULT_NAME = true) :
    SelectProxy.resolveName E req name = SelectProxy.resolveName E req E.spac.defaultRule ∧
    SelectProxy.resolveLoop E req [name] [] =
      SelectProxy.resolveLoop E req [E.spac.defaultRule] [] := by
  have h1 : SelectProxy.resolveName E req name =
      SelectProxy.resolveName E req E.spac.defaultRule := by
    unfold SelectProxy.resolveName
    simp only [h, if_true]
    by_cases hd : EqualFold E.simpleFold E.spac.defaultRule E.names.DEFAULT_NAME = true
    · simp only [hd, if_true]
    · simp only [hd, Bool.false_eq_true, if_false]
  exact ⟨h1, by simp only [SelectProxy.resolveLoop, h1]⟩

/-- C11 at a concrete input: the alias in mixed case, default target GAE. -/
theorem resolveName_default_alias_witness :
    SelectProxy.resolveName
        (exampleEnv [] true 0 (fun _ => false) (fun _ => false) (fun _ => false))
        (exampleReq "example.com") "dEfAuLt" =
      SelectProxy.resolveName
        (exampleEnv [] true 0 (fun _ => false) (fun _ => false) (fun _ => false))
        (exampleReq "example.com") "GAE" :=
  (resolveName_default_alias
    (exampleEnv [] true 0 (fun _ => false) (fun _ => false) (fun _ => false))
    (exampleReq "example.com") "dEfAuLt" (by decide)).1

/-- C12 (the code at the failing input): for the Host `[::1]`, an IPv6
literal without port, the direct name resolves to one Forward with
`overProxy = false` whose target is `http://[::1]`, without a port; the two
hosts of the claim resolve as it says. -/
theorem direct_target_without_port :
    SelectProxy.resolveName
        (exampleEnv [] true 0 (fun _ => false) (fun _ => false) (fun _ => false))
        (exampleReq "[::1]") "Direct" =
      ([RemoteConnectionManager.forward ⟨false, "http://[::1]"⟩], []) ∧
    SelectProxy.resolveName
        (exampleEnv [] true 0 (fun _ => false) (fun _ => false) (fun _ => false))
        (exampleReq "example.com") "Direct" =
      ([RemoteConnectionManager.forward ⟨false, "http://example.com:80"⟩], []) ∧
    SelectProxy.resolveName
        (exampleEnv [] true 0 (fun _ => false) (fun _ => false) (fun _ => false))
        (exampleReq "example.com:8080") "Direct" =
      ([RemoteConnectionManager.forward ⟨false, "http://example.com:8080"⟩], []) := by
  refine ⟨by decide, by decide, by decide⟩

theorem resolveName_other {L : RegexpLib} (E : Env L) (req : Request) (name : String)
    (halias : EqualFold E.simpleFold name E.names.DEFAULT_NAME = false)
    (hG : name ≠ E.names.GAE_NAME) (hC4 : name ≠ E.names.C4_NAME)
    (hGo : name ≠ E.names.GOOGLE_NAME) (hGh : name ≠ E.names.GOOGLE_HTTP_NAME)
    (hGs : name ≠ E.names.GOOGLE_HTTPS_NAME) (hD : name ≠ E.names.DIRECT_NAME) :
    SelectProxy.resolveName E req name =
      ([RemoteConnectionManager.forward
        ⟨true, if !Contains (TrimSpace name) "://" then "http://" ++ TrimSpace name
          else TrimSpace name⟩], []) := by
  unfold SelectProxy.resolveName
  simp only [halias, Bool.false_eq_true, if_false]
  have h1 : ¬(name = E.names.GAE_NAME ∨ name = E.names.C4_NAME) := by
    rintro (h | h)
    · exact hG h
    · exact hC4 h
  have h2 : ¬(name = E.names.GOOGLE_NAME ∨ name = E.names.GOOGLE_HTTP_NAME) := by
    rintro (h | h)
    · exact hGo h
    · exact hGh h
  rw [if_neg h1, if_neg h2, if_neg hGs, if_neg hD]

/-- C13 as stated fails: the name `proxy.example.com` resolves to the target
`http://proxy.example.com`, where the normalization of the direct case would
give `http://proxy.example.com:80`. -/
theorem upstream_target_counterexample :
    SelectProxy.resolveName
        (exampleEnv [] true 0 (fun _ => false) (fun _ => false) (fun _ => false))
        (exampleReq "example.com") "proxy.example.com" =
      ([RemoteConnectionManager.forward ⟨true, "http://proxy.example.com"⟩], []) ∧
    upstreamTargetSpec "proxy.example.com" = "http://proxy.example.com:80" ∧
    SelectProxy.resolveName
        (exampleEnv [] true 0 (fun _ => false) (fun _ => false) (fun _ => false))
        (exampleReq "example.com") "proxy.example.com" ≠
      ([RemoteConnectionManager.forward ⟨true, upstreamTargetSpec "proxy.example.com"⟩],
        []) := by
  refine ⟨by decide, by decide, by decide⟩

/-- C13 (amended): a name that is not the default alias, not the GAE or C4
name, not a relay name and not the direct name resolves to exactly one
Forward with `overProxy = true` whose target is the trimmed name, with the
scheme `http://` put in front when the trimmed name holds no `://`; no port
is supplied. -/
theorem resolveName_upstream {L : RegexpLib} (E : Env L) (req : Request) (name : String)
    (halias : EqualFold E.simpleFold name E.names.DEFAULT_NAME = false)
    (hG : name ≠ E.names.GAE_NAME) (hC4 : name ≠ E.names.C4_NAME)
    (hGo : name ≠ E.names.GOOGLE_NAME) (hGh : name ≠ E.names.GOOGLE_HTTP_NAME)
    (hGs : name ≠ E.names.GOOGLE_HTTPS_NAME) (hD : name ≠ E.names.DIRECT_NAME) :
    (SelectProxy.resolveLoop E req [name] []).1 =
      [RemoteConnectionManager.forward
        ⟨true, if !Contains (TrimSpace name) "://" then "http://" ++ TrimSpace name
          else TrimSpace name⟩] ∧
    (Contains (TrimSpace name) "://" = false →
      (SelectProxy.resolveLoop E req [name] []).1 =
        [RemoteConnectionManager.forward ⟨true, "http://" ++ TrimSpace name⟩]) ∧
    (Contains (TrimSpace name) "://" = true →
      (SelectProxy.resolveLoop E req [name] []).1 =
        [RemoteConnectionManager.forward ⟨true, TrimSpace name⟩]) := by
  have h := resolveName_other E req name halias hG hC4 hGo hGh hGs hD
  have hl : (SelectProxy.resolveLoop E req [name] []).1 =
      [RemoteConnectionManager.forward
        ⟨true, if !Contains (TrimSpace name) "://" then "http://" ++ TrimSpace name
          else TrimSpace name⟩] := by
    rw [resolveLoop_fst]
    simp [h]
  refine ⟨hl, ?_, ?_⟩
  · intro hc
    rw [hl]
    simp [hc]
  · intro hc
    rw [hl]
    simp [hc]

/-- C13 (amended) at a concrete input: a name with surrounding blanks and
without scheme or port. -/
theorem resolveName_upstream_witness :
    (SelectProxy.resolveLoop
        (exampleEnv [] true 0 (fun _ => false) (fun _ => false) (fun _ => false))
        (exampleReq "example.com") [" proxy.example.com "] []).1 =
      [RemoteConnectionManager.forward ⟨true, "http://proxy.example.com"⟩] :=
  ((resolveName_upstream
    (exampleEnv [] true 0 (fun _ => false) (fun _ => false) (fun _ => false))
    (exampleReq "example.com") " proxy.example.com " (by decide) (by decide) (by decide)
    (by decide) (by decide) (by decide) (by decide)).2.1 (by decide))

/-! ## C19, C14: `PostInitSpac` -/

theorem PostInitSpac_change {R P : Type} (N : Names) (gae_enable c4_enable : Bool)
    (initHostMatchRegex : String → P) (st : PolicyState R P) (hGC : N.GAE_NAME ≠ N.C4_NAME)
    (h : (st.spac.defaultRule = N.GAE_NAME ∧ gae_enable = false) ∨
      (st.spac.defaultRule = N.C4_NAME ∧ c4_enable = false)) :
    PostInitSpac N gae_enable c4_enable initHostMatchRegex st =
      ⟨⟨N.DIRECT_NAME, st.spac.rules⟩, initHostMatchRegex "*"⟩ := by
  rcases h with ⟨hd, hg⟩ | ⟨hd, hc⟩
  · unfold PostInitSpac
    rw [if_pos hd, hg]
    rfl
  · have hne : st.spac.defaultRule ≠ N.GAE_NAME := fun h => hGC (h.symm.trans hd)
    unfold PostInitSpac
    rw [if_neg hne, if_pos hd, hc]
    rfl

theorem PostInitSpac_keep {R P : Type} (N : Names) (gae_enable c4_enable : Bool)
    (initHostMatchRegex : String → P) (st : PolicyState R P)
    (hnot : ¬((st.spac.defaultRule = N.GAE_NAME ∧ gae_enable = false) ∨
      (st.spac.defaultRule = N.C4_NAME ∧ c4_enable = false))) :
    PostInitSpac N gae_enable c4_enable initHostMatchRegex st = st := by
  unfold PostInitSpac
  by_cases hd : st.spac.defaultRule = N.GAE_NAME
  · have hg : gae_enable = true := by
      by_contra hg
      exact hnot (Or.inl ⟨hd, by simpa using hg⟩)
    rw [if_pos hd, hg]
    rfl
  · by_cases hd2 : st.spac.defaultRule = N.C4_NAME
    · have hc : c4_enable = true := by
        by_contra hc
        exact hnot (Or.inr ⟨hd2, by simpa using hc⟩)
      rw [if_neg hd, if_pos hd2, hc]
      rfl
    · rw [if_neg hd, if_neg hd2]

/-- C19: `PostInitSpac` changes the state in two cases only, the default
target being the GAE name with GAE disabled or the C4 name with C4 disabled:
the default target becomes the direct name and the CRLF pattern set becomes
`initHostMatchRegex("*")`.  In every other case the state is unchanged; the
rule list is never changed; and a second application changes nothing more.
The three name constants involved are distinct. -/
theorem PostInitSpac_spec {R P : Type} (N : Names) (gae_enable c4_enable : Bool)
    (initHostMatchRegex : String → P) (st : PolicyState R P)
    (hGC : N.GAE_NAME ≠ N.C4_NAME) (hDG : N.DIRECT_NAME ≠ N.GAE_NAME)
    (hDC : N.DIRECT_NAME ≠ N.C4_NAME) :
    (((st.spac.defaultRule = N.GAE_NAME ∧ gae_enable = false) ∨
        (st.spac.defaultRule = N.C4_NAME ∧ c4_enable = false)) →
      PostInitSpac N gae_enable c4_enable initHostMatchRegex st =
        ⟨⟨N.DIRECT_NAME, st.spac.rules⟩, initHostMatchRegex "*"⟩) ∧
    (¬((st.spac.defaultRule = N.GAE_NAME ∧ gae_enable = false) ∨
        (st.spac.defaultRule = N.C4_NAME ∧ c4_enable = false)) →
      PostInitSpac N gae_enable c4_enable initHostMatchRegex st = st) ∧
    (PostInitSpac N gae_enable c4_enable initHostMatchRegex st).spac.rules = st.spac.rules ∧
    PostInitSpac N gae_enable c4_enable initHostMatchRegex
        (PostInitSpac N gae_enable c4_enable initHostMatchRegex st) =
      PostInitSpac N gae_enable c4_enable initHostMatchRegex st := by
  have hchange := PostInitSpac_change N gae_enable c4_enable initHostMatchRegex st hGC
  have hkeep := PostInitSpac_keep N gae_enable c4_enable initHostMatchRegex st
  have hdirect : ∀ p : P, PostInitSpac N gae_enable c4_enable initHostMatchRegex
      (⟨⟨N.DIRECT_NAME, st.spac.rules⟩, p⟩ : PolicyState R P) =
      ⟨⟨N.DIRECT_NAME, st.spac.rules⟩, p⟩ := by
    intro p
    unfold PostInitSpac
    rw [if_neg hDG, if_neg hDC]
  refine ⟨hchange, hkeep, ?_, ?_⟩
  · by_cases hc : (st.spac.defaultRule = N.GAE_NAME ∧ gae_enable = false) ∨
        (st.spac.defaultRule = N.C4_NAME ∧ c4_enable = false)
    · rw [hchange hc]
    · rw [hkeep hc]
  · by_cases hc : (st.spac.defaultRule = N.GAE_NAME ∧ gae_enable = false) ∨
        (st.spac.defaultRule = N.C4_NAME ∧ c4_enable = false)
    · rw [hchange hc, hdirect]
    · rw [hkeep hc, hkeep hc]

/-- C19 at a concrete input: default target GAE, GAE disabled. -/
theorem PostInitSpac_spec_witness :
    PostInitSpac gsnovaNames false true (fun p => [p])
        (⟨⟨"GAE", [ruleOf Re [] ["C4"]]⟩, []⟩ : PolicyState Re (List String)) =
      ⟨⟨"Direct", [ruleOf Re [] ["C4"]]⟩, ["*"]⟩ :=
  (PostInitSpac_spec gsnovaNames false true (fun p => [p])
    (⟨⟨"GAE", [ruleOf Re [] ["C4"]]⟩, []⟩ : PolicyState Re (List String))
    (by decide) (by decide) (by decide)).1 (Or.inl ⟨rfl, rfl⟩)

theorem InitSpac_default (L : RegexpLib) (N : Names) (C : Config) :
    (InitSpac L N C).1.defaultRule =
      if C.spacDefault.1.length = 0 then N.GAE_NAME else C.spacDefault.1 := by
  unfold InitSpac
  simp only []
  split
  · rfl
  · split <;> rfl

theorem resolveName_defaultRule_registered {L : RegexpLib} (E : Env L) (req : Request)
    (h : E.spac.defaultRule = E.names.GAE_NAME ∨ E.spac.defaultRule = E.names.C4_NAME)
    (v : RemoteConnectionManager)
    (hv : E.registedRemoteConnManager E.spac.defaultRule = some v) :
    SelectProxy.resolveName E req E.spac.defaultRule = ([v], []) := by
  unfold SelectProxy.resolveName
  simp only [ite_self]
  rw [if_pos h, hv]

theorem resolveName_defaultRule_unregistered {L : RegexpLib} (E : Env L) (req : Request)
    (h : E.spac.defaultRule = E.names.GAE_NAME ∨ E.spac.defaultRule = E.names.C4_NAME)
    (hv : E.registedRemoteConnManager E.spac.defaultRule = none) :
    SelectProxy.resolveName E req E.spac.defaultRule =
      ([], [Event.logNoProxy E.spac.defaultRule]) := by
  unfold SelectProxy.resolveName
  simp only [ite_self]
  rw [if_pos h, hv]

theorem proxyNames_default_alone {L : RegexpLib} (E : Env L) (req : Request)
    (isHttpsConn : Bool)
    (hno : ∀ q ∈ E.spac.rules, q.match L req = false)
    (hcrlf : (!isHttpsConn && E.needInjectCRLF req.Host) = false)
    (hfb : E.hostsEnable = E.HOSTS_DISABLE ∨
      (E.lookupReachableMappingHost req
        (JoinHostPort (SelectProxy.hostPort req).1 (SelectProxy.hostPort req).2)).2 = false) :
    (SelectProxy.proxyNames E req isHttpsConn).1 = [E.spac.defaultRule] := by
  rw [proxyNames_unmatched E req isHttpsConn hno hcrlf]
  unfold SelectProxy.hostsStage
  rcases hfb with hdis | hmiss
  · simp [hdis]
  · simp only [hmiss]
    split_ifs with h1 h2
    · exact absurd h2 (by simp)
    · rfl
    · rfl

theorem resolveName_defaultRule_forward {L : RegexpLib} (E : Env L) (req : Request)
    (hG : E.spac.defaultRule ≠ E.names.GAE_NAME) (hC4 : E.spac.defaultRule ≠ E.names.C4_NAME)
    (hGo : E.spac.defaultRule ≠ E.names.GOOGLE_NAME)
    (hGh : E.spac.defaultRule ≠ E.names.GOOGLE_HTTP_NAME)
    (hGs : E.spac.defaultRule ≠ E.names.GOOGLE_HTTPS_NAME) :
    ∃ f, SelectProxy.resolveName E req E.spac.defaultRule =
        ([RemoteConnectionManager.forward f], []) ∧
      (E.spac.defaultRule = E.names.DIRECT_NAME → f.overProxy = false) := by
  unfold SelectProxy.resolveName
  simp only [ite_self]
  have h1 : ¬(E.spac.defaultRule = E.names.GAE_NAME ∨
      E.spac.defaultRule = E.names.C4_NAME) := by
    rintro (h | h)
    · exact hG h
    · exact hC4 h
  have h2 : ¬(E.spac.defaultRule = E.names.GOOGLE_NAME ∨
      E.spac.defaultRule = E.names.GOOGLE_HTTP_NAME) := by
    rintro (h | h)
    · exact hGo h
    · exact hGh h
  rw [if_neg h1, if_neg h2, if_neg hGs]
  by_cases hD : E.spac.defaultRule = E.names.DIRECT_NAME
  · rw [if_pos hD]
    exact ⟨_, rfl, fun _ => rfl⟩
  · rw [if_neg hD]
    exact ⟨_, rfl, fun h => absurd h hD⟩

/-- C14 as stated fails: with the default target GAE, GAE enabled and no
GAE handler in the registry, `InitSpac` and `PostInitSpac` leave the default
target GAE, it resolves to no handler (the miss is logged), and a request
that matches no rule and triggers no fallback gets the empty candidate
list. -/
theorem default_unregistered_counterexample :
    (startedEnv (defaultOnlyConfig "GAE") true true false).spac.defaultRule = "GAE" ∧
    (SelectProxy.resolveName (startedEnv (defaultOnlyConfig "GAE") true true false)
      (exampleReq "example.com") "GAE").1.length = 0 ∧
    SelectProxy (startedEnv (defaultOnlyConfig "GAE") true true false)
        (exampleReq "example.com") 0 true = (some [], [Event.logNoProxy "GAE"]) := by
  refine ⟨by decide, by decide, by decide⟩

/-- C14 (amended): after `InitSpac` and `PostInitSpac` the default target is
the direct name when the configured default (the GAE name when none is
configured) is the GAE name with GAE disabled or the C4 name with C4
disabled, and the configured default otherwise.  Resolving it yields exactly
one handler when it is not a relay name and, if it is the GAE or C4 name,
the registry holds a handler under it; after the coercion it is one Forward
with `overProxy = false`.  When it is the GAE or C4 name and the registry
holds no handler under it, it resolves to no handler, the miss is logged,
and a request that is not handled locally, matches no rule and triggers no
fallback gets the empty candidate list.  The name constants are distinct. -/
theorem default_resolvable {L : RegexpLib} {P : Type} (E : Env L) (C : Config)
    (gae_enable c4_enable : Bool) (initHostMatchRegex : String → P) (p : P) (req : Request)
    (hspac : E.spac = (PostInitSpac E.names gae_enable c4_enable initHostMatchRegex
      ⟨(InitSpac L E.names C).1, p⟩).spac)
    (hGC : E.names.GAE_NAME ≠ E.names.C4_NAME)
    (hDG : E.names.DIRECT_NAME ≠ E.names.GAE_NAME)
    (hDC : E.names.DIRECT_NAME ≠ E.names.C4_NAME)
    (hDGo : E.names.DIRECT_NAME ≠ E.names.GOOGLE_NAME)
    (hDGh : E.names.DIRECT_NAME ≠ E.names.GOOGLE_HTTP_NAME)
    (hDGs : E.names.DIRECT_NAME ≠ E.names.GOOGLE_HTTPS_NAME) :
    (InitSpac L E.names C).1.defaultRule =
      (if C.spacDefault.1.length = 0 then E.names.GAE_NAME else C.spacDefault.1) ∧
    ((((InitSpac L E.names C).1.defaultRule = E.names.GAE_NAME ∧ gae_enable = false) ∨
        ((InitSpac L E.names C).1.defaultRule = E.names.C4_NAME ∧ c4_enable = false)) →
      E.spac.defaultRule = E.names.DIRECT_NAME ∧
      ∃ t, SelectProxy.resolveName E req E.spac.defaultRule =
        ([RemoteConnectionManager.forward ⟨false, t⟩], [])) ∧
    (¬(((InitSpac L E.names C).1.defaultRule = E.names.GAE_NAME ∧ gae_enable = false) ∨
        ((InitSpac L E.names C).1.defaultRule = E.names.C4_NAME ∧ c4_enable = false)) →
      E.spac.defaultRule = (InitSpac L E.names C).1.defaultRule) ∧
    (E.spac.defaultRule ≠ E.names.GOOGLE_NAME →
      E.spac.defaultRule ≠ E.names.GOOGLE_HTTP_NAME →
      E.spac.defaultRule ≠ E.names.GOOGLE_HTTPS_NAME →
      ((E.spac.defaultRule = E.names.GAE_NAME ∨ E.spac.defaultRule = E.names.C4_NAME) →
        (E.registedRemoteConnManager E.spac.defaultRule).isSome = true) →
      (SelectProxy.resolveName E req E.spac.defaultRule).1.length = 1) ∧
    ((E.spac.defaultRule = E.names.GAE_NAME ∨ E.spac.defaultRule = E.names.C4_NAME) →
      E.registedRemoteConnManager E.spac.defaultRule = none →
      SelectProxy.resolveName E req E.spac.defaultRule =
        ([], [Event.logNoProxy E.spac.defaultRule]) ∧
      ∀ (conn : Conn) (isHttpsConn : Bool),
        SelectProxy.isSelf E req = false →
        (!isHttpsConn && E.needRedirectHttpsHost req.Host) = false →
        (∀ q ∈ E.spac.rules, q.match L req = false) →
        (!isHttpsConn && E.needInjectCRLF req.Host) = false →
        (E.hostsEnable = E.HOSTS_DISABLE ∨
          (E.lookupReachableMappingHost req
            (JoinHostPort (SelectProxy.hostPort req).1 (SelectProxy.hostPort req).2)).2
              = false) →
        (SelectProxy E req conn isHttpsConn).1 = some []) := by
  refine ⟨InitSpac_default L E.names C, ?_, ?_, ?_, ?_⟩
  · intro hc
    have hd : E.spac.defaultRule = E.names.DIRECT_NAME := by
      rw [hspac, PostInitSpac_change E.names gae_enable c4_enable initHostMatchRegex _ hGC hc]
    refine ⟨hd, ?_⟩
    obtain ⟨f, hf, hover⟩ := resolveName_defaultRule_forward E req (hd ▸ hDG) (hd ▸ hDC)
      (hd ▸ hDGo) (hd ▸ hDGh) (hd ▸ hDGs)
    refine ⟨f.target, ?_⟩
    rw [hf]
    have ho := hover hd
    cases f with
    | mk o t =>
      simp only at ho
      subst ho
      rfl
  · intro hc
    rw [hspac, PostInitSpac_keep E.names gae_enable c4_enable initHostMatchRegex _ hc]
  · intro hGo hGh hGs hreg
    by_cases hr : E.spac.defaultRule = E.names.GAE_NAME ∨ E.spac.defaultRule = E.names.C4_NAME
    · have hsome := hreg hr
      cases hv : E.registedRemoteConnManager E.spac.defaultRule with
      | none => simp [hv] at hsome
      | some v =>
        rw [resolveName_defaultRule_registered E req hr v hv]
        rfl
    · have hG : E.spac.defaultRule ≠ E.names.GAE_NAME := fun h => hr (Or.inl h)
      have hC4 : E.spac.defaultRule ≠ E.names.C4_NAME := fun h => hr (Or.inr h)
      obtain ⟨f, hf, _⟩ := resolveName_defaultRule_forward E req hG hC4 hGo hGh hGs
      rw [hf]
      rfl
  · intro hr hv
    have hres := resolveName_defaultRule_unregistered E req hr hv
    refine ⟨hres, ?_⟩
    intro conn isHttpsConn hself hredir hno hcrlf hfb
    rw [SelectProxy_not_local E req conn isHttpsConn hself hredir,
      proxyNames_default_alone E req isHttpsConn hno hcrlf hfb, resolveLoop_fst]
    simp [hres]

/-- C14 (amended) at a concrete input: no default configured beyond GAE, GAE
disabled. -/
theorem default_resolvable_witness :
    (startedEnv (defaultOnlyConfig "GAE") false true false).spac.defaultRule = "Direct" ∧
    ∃ t, SelectProxy.resolveName (startedEnv (defaultOnlyConfig "GAE") false true false)
        (exampleReq "example.com")
        (startedEnv (defaultOnlyConfig "GAE") false true false).spac.defaultRule =
      ([RemoteConnectionManager.forward ⟨false, t⟩], []) :=
  (default_resolvable (startedEnv (defaultOnlyConfig "GAE") false true false)
    (defaultOnlyConfig "GAE") false true (fun p => [p]) ([] : List String)
    (exampleReq "example.com") rfl (by decide) (by decide) (by decide) (by decide)
    (by decide) (by decide)).2.1 (Or.inl ⟨by decide, rfl⟩)

/-! ## Lemmas on `generatePAC` -/

theorem line_cases (l : String) :
    (generatePAC.isProcessed l = false ∧ generatePAC.line l = LineResult.skip) ∨
    (generatePAC.isProcessed l = true ∧
      (generatePAC.line l = LineResult.sliceOutOfRange ∨
        ∃ js, generatePAC.line l =
          LineResult.emit js (if generatePAC.isException l then "DEFAULT" else "PROXY"))) := by
  unfold generatePAC.isProcessed generatePAC.isException generatePAC.line
  by_cases hp : (HasPrefix (TrimSpace l) "!" || (TrimSpace l).length == 0) = true
  · left
    simp [hp]
  · right
    have hp2 : (HasPrefix (TrimSpace l) "!" || (TrimSpace l).length == 0) = false := by
      simpa using hp
    refine ⟨by simp [hp2], ?_⟩
    simp only [hp2, Bool.false_eq_true, if_false]
    split_ifs
    all_goals first
      | exact Or.inr ⟨_, rfl⟩
      | exact Or.inl rfl

theorem loop_ok (ls : List String) :
    ∀ (i : Nat) (jscode : List String),
      (∀ l ∈ ls, generatePAC.line l ≠ LineResult.sliceOutOfRange) →
      generatePAC.loop ls (i + 1) jscode =
        some (((ls.filter generatePAC.isException).filterMap generatePAC.stmtOf).reverse ++
          jscode ++
          (ls.filter fun l => !generatePAC.isException l).filterMap generatePAC.stmtOf) := by
  induction ls with
  | nil =>
    intro i jscode _
    simp [generatePAC.loop]
  | cons l rest ih =>
    intro i jscode h
    have hl := h l (List.mem_cons_self _ _)
    have hrest : ∀ x ∈ rest, generatePAC.line x ≠ LineResult.sliceOutOfRange :=
      fun x hx => h x (List.mem_cons_of_mem _ hx)
    rw [generatePAC.loop, if_neg (by omega)]
    rcases line_cases l with ⟨_, hskip⟩ | ⟨_, hpanic | ⟨js, hjs⟩⟩
    · have hs : generatePAC.stmtOf l = none := by simp [generatePAC.stmtOf, hskip]
      rw [hskip]
      simp only []
      rw [ih (i + 1) jscode hrest]
      by_cases he : generatePAC.isException l = true
      · simp [List.filter_cons, he, hs]
      · simp [List.filter_cons, he, hs]
    · exact absurd hpanic hl
    · have hs : generatePAC.stmtOf l = some js := by simp [generatePAC.stmtOf, hjs]
      rw [hjs]
      simp only []
      by_cases he : generatePAC.isException l = true
      · simp only [he, if_true]
        rw [ih (i + 1) _ hrest]
        simp [List.filter_cons, he, hs]
      · have he2 : generatePAC.isException l = false := by simpa using he
        simp only [he2, Bool.false_eq_true, if_false]
        rw [if_neg (by decide), ih (i + 1) _ hrest]
        simp [List.filter_cons, he2, hs]

theorem loop_fail (ls : List String) :
    ∀ (i : Nat) (jscode : List String),
      (∃ l ∈ ls, generatePAC.line l = LineResult.sliceOutOfRange) →
      generatePAC.loop ls (i + 1) jscode = none := by
  induction ls with
  | nil =>
    intro i jscode h
    simp at h
  | cons l rest ih =>
    intro i jscode h
    rw [generatePAC.loop, if_neg (by omega)]
    by_cases hl : generatePAC.line l = LineResult.sliceOutOfRange
    · rw [hl]
    · have hrest : ∃ x ∈ rest, generatePAC.line x = LineResult.sliceOutOfRange := by
        obtain ⟨x, hx, hxl⟩ := h
        rcases List.mem_cons.mp hx with rfl | hx
        · exact absurd hxl hl
        · exact ⟨x, hx, hxl⟩
      cases hline : generatePAC.line l with
      | skip => exact ih _ _ hrest
      | sliceOutOfRange => exact absurd hline hl
      | emit js pv =>
        simp only []
        split_ifs
        · exact ih _ _ hrest
        · exact ih _ _ hrest

theorem loop_first (lines : List String) :
    generatePAC.loop lines 0 [] = generatePAC.loop lines.tail 1 [] := by
  cases lines with
  | nil => rfl
  | cons l rest => simp [generatePAC.loop]

theorem line_emit_shape (l js pv : String) (h : generatePAC.line l = LineResult.emit js pv) :
    (∃ body, js = "if(/" ++ body ++ "/i.test(url)) return " ++ pv ++ ";") ∧
      pv = if generatePAC.isException l then "DEFAULT" else "PROXY" := by
  unfold generatePAC.line at h
  unfold generatePAC.isException
  simp only [] at h
  by_cases hp : (HasPrefix (TrimSpace l) "!" || (TrimSpace l).length == 0) = true
  · rw [if_pos hp] at h
    cases h
  · rw [if_neg hp] at h
    by_cases he : HasPrefix (TrimSpace l) "@@" = true
    · simp only [he, if_true] at h
      split_ifs at h
      all_goals
        cases h
        exact ⟨⟨_, rfl⟩, by simp [he]⟩
    · have he2 : HasPrefix (TrimSpace l) "@@" = false := by simpa using he
      simp only [he2, Bool.false_eq_true, if_false] at h
      split_ifs at h
      all_goals
        cases h
        exact ⟨⟨_, rfl⟩, by simp [he2]⟩

theorem stmtOf_shape (l js : String) (h : generatePAC.stmtOf l = some js) :
    ∃ body, js = "if(/" ++ body ++ "/i.test(url)) return " ++
      (if generatePAC.isException l then "DEFAULT" else "PROXY") ++ ";" := by
  unfold generatePAC.stmtOf at h
  cases hl : generatePAC.line l with
  | skip => simp [hl] at h
  | sliceOutOfRange => simp [hl] at h
  | emit js2 pv =>
    rw [hl] at h
    have hjs : js2 = js := Option.some.inj h
    obtain ⟨⟨body, hb⟩, hpv⟩ := line_emit_shape l js2 pv hl
    exact ⟨body, by rw [← hjs, hb, hpv]⟩

/-! ## C15, C16, C20: the statement list of `generatePAC` -/

/-- On the pieces that `ReadLine` returns, when no piece after the first
fails, the statement list is the statements of the `@@` pieces (in reverse
order) followed by the statements of the other pieces in order, and this
list, joined, is what the template renders; when some piece fails, nothing
is rendered. -/
theorem statements_of_pieces (ProxyPort : String) (user : Option String)
    (url date content : String) :
    ((∀ l ∈ (readLines (generatePAC.content user content)).tail,
        generatePAC.line l ≠ LineResult.sliceOutOfRange) →
      generatePAC.statements user content =
        some ((((readLines (generatePAC.content user content)).tail.filter
            generatePAC.isException).filterMap generatePAC.stmtOf).reverse ++
          ((readLines (generatePAC.content user content)).tail.filter
            fun l => !generatePAC.isException l).filterMap generatePAC.stmtOf) ∧
      generatePAC ProxyPort user url date content =
        some (pacGenFormatter url date ("PROXY " ++ JoinHostPort "127.0.0.1" ProxyPort)
          (String.intercalate "\r\n\t"
            ((((readLines (generatePAC.content user content)).tail.filter
                generatePAC.isException).filterMap generatePAC.stmtOf).reverse ++
              ((readLines (generatePAC.content user content)).tail.filter
                fun l => !generatePAC.isException l).filterMap generatePAC.stmtOf)))) ∧
    ((∃ l ∈ (readLines (generatePAC.content user content)).tail,
        generatePAC.line l = LineResult.sliceOutOfRange) →
      generatePAC ProxyPort user url date content = none) ∧
    (∀ l js, generatePAC.stmtOf l = some js →
      ∃ body, js = "if(/" ++ body ++ "/i.test(url)) return " ++
        (if generatePAC.isException l then "DEFAULT" else "PROXY") ++ ";") := by
  refine ⟨?_, ?_, stmtOf_shape⟩
  · intro h
    have hs : generatePAC.statements user content =
        some ((((readLines (generatePAC.content user content)).tail.filter
            generatePAC.isException).filterMap generatePAC.stmtOf).reverse ++
          ((readLines (generatePAC.content user content)).tail.filter
            fun l => !generatePAC.isException l).filterMap generatePAC.stmtOf) := by
      unfold generatePAC.statements
      rw [loop_first, loop_ok _ 0 [] h]
      simp
    refine ⟨hs, ?_⟩
    unfold generatePAC
    rw [hs]
    rfl
  · intro h
    unfold generatePAC generatePAC.statements
    rw [loop_first, loop_fail _ 0 [] h]
    rfl

/-- C15 (the code at the failing input): a body of four lines whose third
line is an exception line of `@@` and 4095 letters.  `ReadLine` returns it
in two pieces, of 4096 bytes and of one letter; only the first piece starts
with `@@`.  The statement list has four statements, and the statement of the
second piece, which comes from the exception line, returns PROXY and stands
after the statement of the block line `block.com`. -/
theorem generatePAC_exception_tail_after_block :
    (readLines longExceptionBody).map String.length = [1, 9, 4096, 1, 9] ∧
    (readLines longExceptionBody).drop 3 = ["a", "other.org"] ∧
    (readLines longExceptionBody).map generatePAC.isException =
      [false, false, true, false, false] ∧
    (generatePAC.statements none longExceptionBody).map List.length = some 4 ∧
    (generatePAC.statements none longExceptionBody).map (fun l => l.drop 1) =
      some ["if(/block\\.com/i.test(url)) return PROXY;",
        "if(/a/i.test(url)) return PROXY;",
        "if(/other\\.org/i.test(url)) return PROXY;"] := by
  refine ⟨by decide!, by decide!, by decide!, by decide!, by decide!⟩

/-- C16 (the code at the failing inputs): a body whose second line is one
line of 4097 letters is read as three lines, so that line gets two
statements; and a body whose second line is `/` gets no statement list at
all, the slice of the regular-expression branch being out of range. -/
theorem generatePAC_statement_count :
    (readLines (String.mk ('h' :: '\n' :: List.replicate 4097 'a'))).map String.length =
      [1, 4096, 1] ∧
    (generatePAC.statements none
      (String.mk ('h' :: '\n' :: List.replicate 4097 'a'))).map List.length = some 2 ∧
    generatePAC.isProcessed "/" = true ∧
    generatePAC.statements none "[AutoProxy]\n/" = none := by
  refine ⟨by decide!, by decide!, by decide, by decide⟩

/-- C20 (the code at the failing inputs): for every url and date, a content
whose second line is `/`, or `@@/`, makes `generatePAC` fail at the slice
`str[1 : len(str)-1]`, whose bounds are then 1 and 0; no PAC text is
returned. -/
theorem generatePAC_slice_out_of_range (ProxyPort url date : String) :
    generatePAC.line "/" = LineResult.sliceOutOfRange ∧
    generatePAC.line "@@/" = LineResult.sliceOutOfRange ∧
    generatePAC ProxyPort none url date "[AutoProxy]\n/" = none ∧
    generatePAC ProxyPort none url date "[AutoProxy]\nexample.com\n@@/" = none := by
  have h1 : generatePAC.statements none "[AutoProxy]\n/" = none := by decide
  have h2 : generatePAC.statements none "[AutoProxy]\nexample.com\n@@/" = none := by decide
  refine ⟨by decide, by decide, ?_, ?_⟩
  · unfold generatePAC
    rw [h1]
    rfl
  · unfold generatePAC
    rw [h2]
    rfl

/-! ## C17, C18: the AutoProxy translation -/

theorem ends_backslash_bol (s : List Char) (i : Nat) :
    Re.ends s (Re.cat (Re.lit '\\') (Re.cat Re.bol Re.empty)) i = [] := by
  simp only [Re.ends]
  split_ifs <;> simp

theorem findFrom_backslash_bol (s : List Char) (n pos : Nat) :
    Re.findFrom (Re.cat (Re.lit '\\') (Re.cat Re.bol Re.empty)) s n pos = none := by
  induction n generalizing pos with
  | zero => rfl
  | succ n ih => simp only [Re.findFrom, ends_backslash_bol, ih]

theorem replaceAll_backslash_bol (src repl : String) :
    (Re.cat (Re.lit '\\') (Re.cat Re.bol Re.empty)).ReplaceAllString src repl = src := by
  unfold Re.ReplaceAllString
  simp only [Re.replaceLoop, findFrom_backslash_bol]
  simp

/-- C18 (the code at the failing input): the pattern of the separator step,
the Go text with two backslashes and a caret, compiles to a backslash
followed by the start-of-text anchor, and replacing its matches leaves every
text as it is.  So the line `||example.com^` yields a body that ends in the
escaped caret and holds no boundary class; the same for a caret inside a
line. -/
theorem translate_keeps_escaped_caret :
    Re.Compile "\\\\^" = .ok (Re.cat (Re.lit '\\') (Re.cat Re.bol Re.empty)) ∧
    (∀ src repl : String,
      (Re.cat (Re.lit '\\') (Re.cat Re.bol Re.empty)).ReplaceAllString src repl = src) ∧
    generatePAC.translate "||example.com^" =
      "^[\\w\\-]+:\\/+(?!\\/)(?:[^\\/]+\\.)?example\\.com\\^" ∧
    HasSuffix (generatePAC.translate "||example.com^") "\\^" = true ∧
    Contains (generatePAC.translate "||example.com^") "(?:[^\\w\\-.%\u0080-\uFFFF]|$)" = false ∧
    generatePAC.translate "a^b" = "a\\^b" := by
  refine ⟨by rfl, replaceAll_backslash_bol, by decide, by decide, by decide, by decide⟩

theorem translate_example_value :
    generatePAC.translate "||example.com^" =
      "^[\\w\\-]+:\\/+(?!\\/)(?:[^\\/]+\\.)?example\\.com\\^" := by
  decide

theorem test_code_body :
    Js.test "^[\\w\\-]+:\\/+(?!\\/)(?:[^\\/]+\\.)?example\\.com\\^"
      "http://example.com/path" = some false ∧
    Js.test "^[\\w\\-]+:\\/+(?!\\/)(?:[^\\/]+\\.)?example\\.com\\^"
      "https://sub.example.com" = some false ∧
    Js.test "^[\\w\\-]+:\\/+(?!\\/)(?:[^\\/]+\\.)?example\\.com\\^"
      "http://notexample.com" = some false := by
  refine ⟨by decide, by decide, by decide⟩

theorem test_boundary_body :
    Js.test "^[\\w\\-]+:\\/+(?!\\/)(?:[^\\/]+\\.)?example\\.com(?:[^\\w\\-.%\u0080-\uFFFF]|$)"
      "http://example.com/path" = some true ∧
    Js.test "^[\\w\\-]+:\\/+(?!\\/)(?:[^\\/]+\\.)?example\\.com(?:[^\\w\\-.%\u0080-\uFFFF]|$)"
      "https://sub.example.com" = some true ∧
    Js.test "^[\\w\\-]+:\\/+(?!\\/)(?:[^\\/]+\\.)?example\\.com(?:[^\\w\\-.%\u0080-\uFFFF]|$)"
      "http://notexample.com" = some false := by
  refine ⟨by decide, by decide, by decide⟩

theorem line_domain_anchor :
    generatePAC.line "||example.com^" =
      LineResult.emit
        "if(/^[\\w\\-]+:\\/+(?!\\/)(?:[^\\/]+\\.)?example\\.com\\^/i.test(url)) return PROXY;"
        "PROXY" := by
  decide

/-- C17 (the code at the failing input): the line `||example.com^` is
translated to a body that ends in an escaped caret, and the test of the
emitted statement is false on all three URLs of the claim, also on the two
it should match; with the boundary class in the place of the escaped caret
the test is true on the first two and false on the third. -/
theorem translate_domain_anchor :
    generatePAC.line "||example.com^" =
      LineResult.emit
        "if(/^[\\w\\-]+:\\/+(?!\\/)(?:[^\\/]+\\.)?example\\.com\\^/i.test(url)) return PROXY;"
        "PROXY" ∧
    Js.test (generatePAC.translate "||example.com^") "http://example.com/path" = some false ∧
    Js.test (generatePAC.translate "||example.com^") "https://sub.example.com" = some false ∧
    Js.test (generatePAC.translate "||example.com^") "http://notexample.com" = some false ∧
    Js.test "^[\\w\\-]+:\\/+(?!\\/)(?:[^\\/]+\\.)?example\\.com(?:[^\\w\\-.%\u0080-\uFFFF]|$)"
      "http://example.com/path" = some true ∧
    Js.test "^[\\w\\-]+:\\/+(?!\\/)(?:[^\\/]+\\.)?example\\.com(?:[^\\w\\-.%\u0080-\uFFFF]|$)"
      "https://sub.example.com" = some true ∧
    Js.test "^[\\w\\-]+:\\/+(?!\\/)(?:[^\\/]+\\.)?example\\.com(?:[^\\w\\-.%\u0080-\uFFFF]|$)"
      "http://notexample.com" = some false := by
  rw [translate_example_value]
  exact ⟨line_domain_anchor, test_code_body.1, test_code_body.2.1, test_code_body.2.2,
    test_boundary_body.1, test_boundary_body.2.1, test_boundary_body.2.2⟩

end Spac
